import Mathlib

/-
  Verification development for the cognito-keycloak compatibility shim.

  The TypeScript sources are embedded shallowly: JavaScript objects become
  Lean structures, undefined-able fields become Option, JavaScript number
  results that can be NaN become JsNumber, Date objects become JsDate values
  that record how they were constructed, and functions that throw become
  Except-valued functions.  Record-of-string-array attribute bags become
  association lists that preserve the JavaScript object insertion-order and
  update-in-place semantics.
-/

-- ============ JavaScript value modelling ============

/-- Truthiness of an optional JavaScript string: undefined and the empty
string are falsy. -/
def strTruthy : Option String → Bool
  | some s => !(s == "")
  | none => false

/-- A JavaScript number that is either NaN or an integer.  All numbers
appearing in the embedded code paths are integer valued except for NaN
results of parseInt. -/
inductive JsNumber where
  | nan : JsNumber
  | int : Int → JsNumber
deriving DecidableEq

/-- JavaScript whitespace skipped by parseInt. -/
def isJsSpace (c : Char) : Bool :=
  c == ' ' || c == '\t' || c == '\n' || c == '\r' || c == '\x0b' || c == '\x0c'

/-- Decimal digit accumulation used by the parseInt model. -/
def digitsToNat : List Char → Nat → Nat
  | [], acc => acc
  | c :: cs, acc => digitsToNat cs (acc * 10 + (c.toNat - 48))

/-- JavaScript parseInt with radix 10 on a character list: skip leading
whitespace, read an optional sign, then the longest run of decimal digits;
no digits gives NaN, and trailing garbage is ignored. -/
def parseIntFrom (l : List Char) : JsNumber :=
  let l := l.dropWhile isJsSpace
  let signRest : Int × List Char :=
    match l with
    | '-' :: cs => (-1, cs)
    | '+' :: cs => (1, cs)
    | cs => (1, cs)
  let ds := signRest.2.takeWhile Char.isDigit
  if ds.isEmpty then JsNumber.nan
  else JsNumber.int (signRest.1 * (digitsToNat ds 0 : Int))

/-- JavaScript parseInt(s, 10). -/
def parseIntDec (s : String) : JsNumber := parseIntFrom s.data

/-- JavaScript Number.prototype.toString for the numbers we model. -/
def JsNumber.asString : JsNumber → String
  | .nan => "NaN"
  | .int n => toString n

/-- Addition of an integer to a JavaScript number (NaN absorbs). -/
def JsNumber.addInt : JsNumber → Int → JsNumber
  | .nan, _ => .nan
  | .int n, m => .int (n + m)

/-- ToInteger coercion used by Array.prototype.slice: NaN becomes 0. -/
def JsNumber.toIntZero : JsNumber → Int
  | .nan => 0
  | .int n => n

/-- A JavaScript Date value, recorded by how it was constructed: from a
millisecond timestamp (including the current time) or from a string. -/
inductive JsDate where
  | ofMillis : Int → JsDate
  | ofString : String → JsDate
deriving DecidableEq

/-- JavaScript Array.prototype.slice with integer arguments. -/
def jsSlice {α : Type} (l : List α) (s e : Int) : List α :=
  let len : Int := l.length
  let lo : Int := if s < 0 then max (len + s) 0 else min s len
  let hi : Int := if e < 0 then max (len + e) 0 else min e len
  (l.drop lo.toNat).take (hi - lo).toNat

-- ============ Attribute bags (Record of string to string array) ============

/-- A Keycloak attribute bag: a JavaScript object mapping attribute names to
string arrays, modelled as an insertion-ordered association list. -/
abbrev AttrMap := List (String × List String)

/-- Property read on an attribute bag. -/
def attrGet (m : AttrMap) (k : String) : Option (List String) :=
  match m.find? (fun p => p.1 == k) with
  | some p => some p.2
  | none => none

/-- Property write on an attribute bag: updates an existing key in place,
otherwise appends, exactly like a JavaScript object assignment. -/
def attrSet : AttrMap → String → List String → AttrMap
  | [], k, v => [(k, v)]
  | p :: rest, k, v => if p.1 == k then (k, v) :: rest else p :: attrSet rest k v

/-- The JavaScript delete operator on an attribute bag. -/
def attrDelete (m : AttrMap) (k : String) : AttrMap :=
  m.filter (fun p => !(p.1 == k))

/-- Optional-chaining read bag.key?.[0] returning the first array element. -/
def attrHead (attributes : Option AttrMap) (k : String) : Option String :=
  match attributes with
  | none => none
  | some m =>
    match attrGet m k with
    | some (v :: _) => some v
    | _ => none

-- ============ Data model ============

/-- Cognito AttributeType: a name/value pair, both possibly undefined. -/
structure AttributeType where
  Name : Option String := none
  Value : Option String := none
deriving DecidableEq

/-- Keycloak UserRepresentation, restricted to the fields the embedded code
reads or writes. -/
structure UserRepresentation where
  id : Option String := none
  username : Option String := none
  email : Option String := none
  emailVerified : Option Bool := none
  firstName : Option String := none
  lastName : Option String := none
  enabled : Option Bool := none
  requiredActions : Option (List String) := none
  createdTimestamp : Option Int := none
  attributes : Option AttrMap := none
deriving DecidableEq

/-- Keycloak GroupRepresentation, restricted to the fields the embedded code
reads or writes. -/
structure GroupRepresentation where
  id : Option String := none
  name : Option String := none
  attributes : Option AttrMap := none
deriving DecidableEq

/-- Cognito UserType as produced by the conversion functions. -/
structure UserType where
  Username : Option String := none
  Attributes : Option (List AttributeType) := none
  UserCreateDate : Option JsDate := none
  UserLastModifiedDate : Option JsDate := none
  Enabled : Option Bool := none
  UserStatus : Option String := none
deriving DecidableEq

/-- Cognito GroupType as produced by the conversion functions. -/
structure GroupType where
  GroupName : Option String := none
  Description : Option String := none
  Precedence : Option JsNumber := none
  RoleArn : Option String := none
  CreationDate : JsDate
  LastModifiedDate : JsDate
deriving DecidableEq

/-- The CognitoException class from src/src/handlers/index.ts. -/
structure CognitoException where
  code : String
  message : String
  httpStatusCode : Nat := 400
deriving DecidableEq

-- ============ Attribute conversion (src/unnamed/part_006) ============

/-- attr.Name.replace with the anchored custom: pattern removes a leading
custom: tag and leaves every other string unchanged. -/
def stripCustom (s : String) : String :=
  match s.data with
  | 'c' :: 'u' :: 's' :: 't' :: 'o' :: 'm' :: ':' :: rest => String.mk rest
  | _ => s

/-- cognitoToKeycloakAttributes from src/unnamed/part_006 lines 89 to 105:
entries with a truthy Name and a defined Value are stored as single-element
arrays keyed by the name with any custom: tag stripped; all other entries are
dropped silently. -/
def cognitoToKeycloakAttributes (attributes : Option (List AttributeType)) : AttrMap :=
  match attributes with
  | none => []
  | some l =>
    l.foldl (fun m attr =>
      match attr.Name, attr.Value with
      | some n, some v => if n == "" then m else attrSet m (stripCustom n) [v]
      | _, _ => m) []

/-- The custom-attribute part of keycloakToCognitoAttributes: every bag entry
with a non-empty array whose key is not email, firstName or lastName is
emitted with a custom: tag and its first array element. -/
def customAttributeList (m : AttrMap) : List AttributeType :=
  m.filterMap (fun p =>
    match p.2 with
    | v :: _ =>
      if p.1 == "email" || p.1 == "firstName" || p.1 == "lastName" then none
      else some { Name := some ("custom:" ++ p.1), Value := some v }
    | [] => none)

/-- keycloakToCognitoAttributes from src/unnamed/part_006 lines 110 to 150:
standard fields first (email, email_verified, given_name, family_name), then
sub from the user id, then the remaining bag attributes with a custom: tag. -/
def keycloakToCognitoAttributes (user : UserRepresentation) : List AttributeType :=
  (if strTruthy user.email then [{ Name := some "email", Value := user.email }] else [])
  ++ (match user.emailVerified with
      | some b => [{ Name := some "email_verified", Value := some (if b then "true" else "false") }]
      | none => [])
  ++ (if strTruthy user.firstName then [{ Name := some "given_name", Value := user.firstName }] else [])
  ++ (if strTruthy user.lastName then [{ Name := some "family_name", Value := user.lastName }] else [])
  ++ (if strTruthy user.id then [{ Name := some "sub", Value := user.id }] else [])
  ++ (match user.attributes with
      | some m => customAttributeList m
      | none => [])

/-- getAttributeValue from src/unnamed/part_006 lines 155 to 160. -/
def getAttributeValue (attributes : Option (List AttributeType)) (name : String) : Option String :=
  match attributes with
  | none => none
  | some l =>
    match l.find? (fun a => a.Name == some name) with
    | some a => a.Value
    | none => none

-- ============ User conversion (src/unnamed/part_006 lines 180 to 212) ============

/-- keycloakToCognitoUser: derives the status from the enabled flag and the
required actions, maps the attributes, and maps the timestamps. -/
def keycloakToCognitoUser (user : UserRepresentation) : UserType :=
  let userStatus : String :=
    if user.enabled != some true then "ARCHIVED"
    else if (user.requiredActions.getD []).contains "UPDATE_PASSWORD" then "FORCE_CHANGE_PASSWORD"
    else "CONFIRMED"
  let createdTimestamp : Option JsDate :=
    match user.createdTimestamp with
    | some ts => if ts == 0 then none else some (JsDate.ofMillis ts)
    | none => none
  let lastModifiedDate : Option JsDate :=
    match attrHead user.attributes "lastModifiedDate" with
    | some s => if s == "" then createdTimestamp else some (JsDate.ofString s)
    | none => createdTimestamp
  { Username := match user.username with | some u => some u | none => user.id
    Attributes := some (keycloakToCognitoAttributes user)
    UserCreateDate := createdTimestamp
    UserLastModifiedDate := lastModifiedDate
    Enabled := user.enabled
    UserStatus := some userStatus }

-- ============ Group conversion ============

/-- keycloakToCognitoGroup from src/unnamed/part_006 lines 217 to 238: reads
description, precedence and roleArn from the attribute bag, parses precedence
with parseInt radix 10, and defaults absent timestamps to the current time
(the now argument stands for the new Date() call). -/
def keycloakToCognitoGroup (group : GroupRepresentation) (now : Int) : GroupType :=
  let attributes := group.attributes.getD []
  let creationDate : JsDate :=
    match attrHead (some attributes) "creationDate" with
    | some s => if s == "" then JsDate.ofMillis now else JsDate.ofString s
    | none => JsDate.ofMillis now
  let lastModifiedDate : JsDate :=
    match attrHead (some attributes) "lastModifiedDate" with
    | some s => if s == "" then creationDate else JsDate.ofString s
    | none => creationDate
  { GroupName := group.name
    Description := attrHead (some attributes) "description"
    Precedence :=
      match attrHead (some attributes) "precedence" with
      | some s => if s == "" then none else some (parseIntDec s)
      | none => none
    RoleArn := attrHead (some attributes) "roleArn"
    CreationDate := creationDate
    LastModifiedDate := lastModifiedDate }

/-- keycloakToCognitoGroup from src/src/handlers/groups.ts lines 97 to 110:
same bag reads, but both timestamps are always the current time. -/
def handlersKeycloakToCognitoGroup (group : GroupRepresentation) (now : Int) : GroupType :=
  let attributes := group.attributes.getD []
  { GroupName := group.name
    Description := attrHead (some attributes) "description"
    Precedence :=
      match attrHead (some attributes) "precedence" with
      | some s => if s == "" then none else some (parseIntDec s)
      | none => none
    RoleArn := attrHead (some attributes) "roleArn"
    CreationDate := JsDate.ofMillis now
    LastModifiedDate := JsDate.ofMillis now }

/-- keycloakToCognitoUser local to src/src/handlers/groups.ts lines 115 to 168
(used by ListUsersInGroup): same status derivation, standard attributes and
sub only, and the last-modified date equals the creation date. -/
def groupsKeycloakToCognitoUser (user : UserRepresentation) : UserType :=
  let userStatus : String :=
    if user.enabled != some true then "ARCHIVED"
    else if (user.requiredActions.getD []).contains "UPDATE_PASSWORD" then "FORCE_CHANGE_PASSWORD"
    else "CONFIRMED"
  let createdTimestamp : Option JsDate :=
    match user.createdTimestamp with
    | some ts => if ts == 0 then none else some (JsDate.ofMillis ts)
    | none => none
  { Username := user.username
    Attributes := some
      ((if strTruthy user.email then [{ Name := some "email", Value := user.email }] else [])
        ++ (match user.emailVerified with
            | some b => [{ Name := some "email_verified", Value := some (if b then "true" else "false") }]
            | none => [])
        ++ (if strTruthy user.firstName then [{ Name := some "given_name", Value := user.firstName }] else [])
        ++ (if strTruthy user.lastName then [{ Name := some "family_name", Value := user.lastName }] else [])
        ++ (if strTruthy user.id then [{ Name := some "sub", Value := user.id }] else []))
    UserCreateDate := createdTimestamp
    UserLastModifiedDate := createdTimestamp
    Enabled := user.enabled
    UserStatus := some userStatus }

-- ============ Validation helpers (src/unnamed/part_006 lines 16 to 41) ============

/-- The validation error thrown by requireUsername. -/
def usernameNullError : CognitoException :=
  { code := "InvalidParameterException"
    message := "1 validation error detected: Value at username failed to satisfy constraint: Member must not be null"
    httpStatusCode := 400 }

/-- requireUsername: throws the validation error when the username is falsy
(undefined or empty). -/
def requireUsername (username : Option String) : Except CognitoException String :=
  match username with
  | some u => if u == "" then .error usernameNullError else .ok u
  | none => .error usernameNullError

-- ============ AdminGetUser (src/unnamed/part_008 lines 114 to 150) ============

/-- AdminGetUserResponse shape. -/
structure AdminGetUserResponse where
  Username : Option String := none
  UserAttributes : Option (List AttributeType) := none
  UserCreateDate : Option JsDate := none
  UserLastModifiedDate : Option JsDate := none
  Enabled : Option Bool := none
  UserStatus : Option String := none
deriving DecidableEq

/-- The response adminGetUser builds from the user fetched from Keycloak,
including its own inline status derivation (lines 129 to 140). -/
def adminGetUserResponseOf (user : UserRepresentation) : AdminGetUserResponse :=
  let createdTimestamp : Option JsDate :=
    match user.createdTimestamp with
    | some ts => if ts == 0 then none else some (JsDate.ofMillis ts)
    | none => none
  let lastModifiedDate : Option JsDate :=
    match attrHead user.attributes "lastModifiedDate" with
    | some s => if s == "" then createdTimestamp else some (JsDate.ofString s)
    | none => createdTimestamp
  let userStatus : String :=
    if user.enabled != some true then "ARCHIVED"
    else if (user.requiredActions.getD []).contains "UPDATE_PASSWORD" then "FORCE_CHANGE_PASSWORD"
    else "CONFIRMED"
  { Username := user.username
    UserAttributes := some (keycloakToCognitoAttributes user)
    UserCreateDate := createdTimestamp
    UserLastModifiedDate := lastModifiedDate
    Enabled := user.enabled
    UserStatus := some userStatus }

-- ============ AdminCreateUser (src/unnamed/part_008 lines 45 to 105) ============

/-- AdminCreateUserRequest restricted to the fields the handler reads. -/
structure AdminCreateUserRequest where
  Username : Option String := none
  UserAttributes : Option (List AttributeType) := none
  TemporaryPassword : Option String := none
  MessageAction : Option String := none
deriving DecidableEq

/-- A credential entry of the Keycloak user-create payload. -/
structure CredentialRepresentation where
  type : String
  value : String
  temporary : Bool
deriving DecidableEq

/-- The Keycloak user-create payload adminCreateUser builds. -/
structure KeycloakUserCreateBody where
  username : String
  email : Option String := none
  firstName : Option String := none
  lastName : Option String := none
  enabled : Bool
  emailVerified : Bool
  attributes : AttrMap
  requiredActions : List String
  credentials : Option (List CredentialRepresentation) := none
deriving DecidableEq

/-- The payload-construction part of adminCreateUser: validates the username
and builds the Keycloak create body, with enabled true, the UPDATE_PASSWORD
required action always set, the converted attributes plus lastModifiedDate
(the now argument stands for the current ISO timestamp), and temporary
credentials only when a truthy TemporaryPassword was supplied. -/
def adminCreateUserBody (request : AdminCreateUserRequest) (now : String) :
    Except CognitoException KeycloakUserCreateBody := do
  let username ← requireUsername request.Username
  let email := getAttributeValue request.UserAttributes "email"
  let firstName := getAttributeValue request.UserAttributes "given_name"
  let lastName := getAttributeValue request.UserAttributes "family_name"
  let emailVerifiedAttr := getAttributeValue request.UserAttributes "email_verified"
  .ok
    { username := username
      email := email
      firstName := firstName
      lastName := lastName
      enabled := true
      emailVerified := (emailVerifiedAttr == some "true") || (request.MessageAction == some "SUPPRESS")
      attributes := attrSet (cognitoToKeycloakAttributes request.UserAttributes) "lastModifiedDate" [now]
      requiredActions := ["UPDATE_PASSWORD"]
      credentials :=
        match request.TemporaryPassword with
        | some p => if p == "" then none else some [{ type := "password", value := p, temporary := true }]
        | none => none }

-- ============ Listing handlers: pagination cores ============

/-- JavaScript Limit or-default: a missing or zero limit becomes the default. -/
def jsOrDefault (limit : Option Int) (d : Int) : Int :=
  match limit with
  | some n => if n == 0 then d else n
  | none => d

/-- The offset parsed from an incoming pagination token: a falsy token means
offset zero, otherwise parseInt radix 10. -/
def tokenOffset (token : Option String) : JsNumber :=
  match token with
  | some s => if s == "" then .int 0 else parseIntDec s
  | none => .int 0

/-- ListUsersRequest restricted to the fields the handler reads. -/
structure ListUsersRequest where
  Limit : Option Int := none
  Filter : Option String := none
  PaginationToken : Option String := none
deriving DecidableEq

/-- ListUsersResponse shape. -/
structure ListUsersResponse where
  Users : List UserType
  PaginationToken : Option String := none
deriving DecidableEq

/-- The post-fetch part of listUsers (src/unnamed/part_008 lines 278 to 330):
given the users returned by the Keycloak search, map them and emit the next
pagination token exactly when the number fetched equals the limit. -/
def listUsersCore (request : ListUsersRequest) (users : List UserRepresentation) : ListUsersResponse :=
  let offset := tokenOffset request.PaginationToken
  let limit := jsOrDefault request.Limit 60
  let cognitoUsers := users.map keycloakToCognitoUser
  let nextToken : Option String :=
    if (users.length : Int) == limit then some ((offset.addInt limit).asString) else none
  { Users := cognitoUsers, PaginationToken := nextToken }

/-- ListGroupsRequest restricted to the fields the handler reads. -/
structure ListGroupsRequest where
  Limit : Option Int := none
  NextToken : Option String := none
deriving DecidableEq

/-- ListGroupsResponse shape. -/
structure ListGroupsResponse where
  Groups : List GroupType
  NextToken : Option String := none
deriving DecidableEq

/-- The post-fetch part of listGroups (src/src/handlers/groups.ts lines 323
to 351): map the fetched groups and emit the next token exactly when the
number fetched equals the limit. -/
def listGroupsCore (request : ListGroupsRequest) (groups : List GroupRepresentation)
    (now : Int) : ListGroupsResponse :=
  let limit := jsOrDefault request.Limit 60
  let offset := tokenOffset request.NextToken
  let cognitoGroups := groups.map (fun g => handlersKeycloakToCognitoGroup g now)
  let nextToken : Option String :=
    if (groups.length : Int) == limit then some ((offset.addInt limit).asString) else none
  { Groups := cognitoGroups, NextToken := nextToken }

/-- ListUsersInGroupRequest restricted to the fields the handler reads. -/
structure ListUsersInGroupRequest where
  GroupName : Option String := none
  Limit : Option Int := none
  NextToken : Option String := none
deriving DecidableEq

/-- ListUsersInGroupResponse shape. -/
structure ListUsersInGroupResponse where
  Users : List UserType
  NextToken : Option String := none
deriving DecidableEq

/-- The post-fetch part of listUsersInGroup (src/src/handlers/groups.ts lines
353 to 385): map the fetched members and emit the next token exactly when the
number fetched equals the limit. -/
def listUsersInGroupCore (request : ListUsersInGroupRequest)
    (members : List UserRepresentation) : ListUsersInGroupResponse :=
  let limit := jsOrDefault request.Limit 60
  let offset := tokenOffset request.NextToken
  let cognitoUsers := members.map groupsKeycloakToCognitoUser
  let nextToken : Option String :=
    if (members.length : Int) == limit then some ((offset.addInt limit).asString) else none
  { Users := cognitoUsers, NextToken := nextToken }

/-- AdminListGroupsForUserRequest restricted to the fields the handler reads. -/
structure AdminListGroupsForUserRequest where
  Username : Option String := none
  Limit : Option Int := none
  NextToken : Option String := none
deriving DecidableEq

/-- AdminListGroupsForUserResponse shape. -/
structure AdminListGroupsForUserResponse where
  Groups : List GroupType
  NextToken : Option String := none
deriving DecidableEq

/-- The post-fetch part of adminListGroupsForUser (src/src/handlers/groups.ts
lines 172 to 210): the full membership list is fetched unpaged, then sliced
client side; the fetchFull argument stands for the per-group findOne lookup
that enriches each sliced group; the next token is emitted exactly when
offset plus limit is below the total number of groups. -/
def adminListGroupsForUserCore (request : AdminListGroupsForUserRequest)
    (groups : List GroupRepresentation)
    (fetchFull : GroupRepresentation → GroupRepresentation) (now : Int) :
    AdminListGroupsForUserResponse :=
  let limit := jsOrDefault request.Limit 60
  let offset := tokenOffset request.NextToken
  let paginatedGroups :=
    jsSlice groups offset.toIntZero ((offset.addInt limit).toIntZero)
  let fullGroups := paginatedGroups.map fetchFull
  let cognitoGroups := fullGroups.map (fun g => handlersKeycloakToCognitoGroup g now)
  let nextToken : Option String :=
    match offset.addInt limit with
    | .nan => none
    | .int v => if v < (groups.length : Int) then some (JsNumber.asString (.int v)) else none
  { Groups := cognitoGroups, NextToken := nextToken }

-- ============ User pool schema (src/unnamed/part_007 lines 10 to 71) ============

/-- StringAttributeConstraints of a schema attribute. -/
structure StringAttributeConstraintsType where
  MinLength : Option String := none
  MaxLength : Option String := none
deriving DecidableEq

/-- A user pool schema attribute. -/
structure SchemaAttributeType where
  Name : String
  AttributeDataType : String
  DeveloperOnlyAttribute : Bool := false
  Mutable : Bool
  Required : Bool
  StringAttributeConstraints : Option StringAttributeConstraintsType := none
  NumberAttributeConstraintsMinValue : Option String := none
deriving DecidableEq

/-- The stringAttr helper building a standard string schema attribute. -/
def stringAttr (name : String) (required : Bool := false) (mutable : Bool := true)
    (min : String := "0") (max : String := "2048") : SchemaAttributeType :=
  { Name := name
    AttributeDataType := "String"
    DeveloperOnlyAttribute := false
    Mutable := mutable
    Required := required
    StringAttributeConstraints := some { MinLength := some min, MaxLength := some max } }

/-- The boolAttr helper building a boolean schema attribute. -/
def boolAttr (name : String) : SchemaAttributeType :=
  { Name := name
    AttributeDataType := "Boolean"
    DeveloperOnlyAttribute := false
    Mutable := true
    Required := false }

/-- SCHEMA_ATTRIBUTES: the fixed user pool schema. -/
def SCHEMA_ATTRIBUTES : List SchemaAttributeType :=
  [ stringAttr "sub" true false "1",
    stringAttr "email" true,
    boolAttr "email_verified",
    stringAttr "given_name",
    stringAttr "family_name",
    stringAttr "name",
    stringAttr "middle_name",
    stringAttr "nickname",
    stringAttr "preferred_username",
    stringAttr "profile",
    stringAttr "picture",
    stringAttr "website",
    stringAttr "gender",
    stringAttr "birthdate" false true "10" "10",
    stringAttr "zoneinfo",
    stringAttr "locale",
    stringAttr "phone_number",
    boolAttr "phone_number_verified",
    stringAttr "address",
    { Name := "updated_at", AttributeDataType := "Number", DeveloperOnlyAttribute := false,
      Mutable := true, Required := false, NumberAttributeConstraintsMinValue := some "0" },
    { Name := "identities", AttributeDataType := "String", DeveloperOnlyAttribute := false,
      Mutable := true, Required := false,
      StringAttributeConstraints := some { MinLength := none, MaxLength := none } } ]

/-- Modelled from the spec: getSchemaAttributeMap is referenced by the user
handlers but its definition is not under src/.  Per the spec, the pool schema
lists the recognized attributes with required and mutable flags; the map is
the by-name lookup table over SCHEMA_ATTRIBUTES. -/
def getSchemaAttributeMap : List (String × SchemaAttributeType) :=
  SCHEMA_ATTRIBUTES.map (fun a => (a.Name, a))

/-- Lookup in the schema attribute map. -/
def schemaLookup (m : List (String × SchemaAttributeType)) (name : String) :
    Option SchemaAttributeType :=
  match m.find? (fun p => p.1 == name) with
  | some p => some p.2
  | none => none

/-- Modelled from the spec: validateAttributeMutable is referenced by the user
handlers but its definition is not under src/.  Per the spec, modifying or
deleting an attribute the pool schema marks immutable (the fixed subject
identifier) is rejected with a validation error whose message indicates an
immutable attribute; attributes absent from the schema pass. -/
def validateAttributeMutable (name : String)
    (schemaMap : List (String × SchemaAttributeType)) : Except CognitoException Unit :=
  match schemaLookup schemaMap name with
  | some sa =>
    if sa.Mutable then .ok ()
    else .error
      { code := "InvalidParameterException"
        message := "Cannot modify the immutable attribute " ++ name ++ "."
        httpStatusCode := 400 }
  | none => .ok ()

/-- Modelled from the spec: validateAttributeDeletable is referenced by the
user handlers but its definition is not under src/.  Per the spec, deleting an
attribute the pool schema marks required is rejected with a
cannot-delete-required-attribute validation error; attributes absent from the
schema pass. -/
def validateAttributeDeletable (name : String)
    (schemaMap : List (String × SchemaAttributeType)) : Except CognitoException Unit :=
  match schemaLookup schemaMap name with
  | some sa =>
    if sa.Required then .error
      { code := "InvalidParameterException"
        message := "Cannot delete the required attribute " ++ name ++ "."
        httpStatusCode := 400 }
    else .ok ()
  | none => .ok ()

-- ==== AdminDeleteUserAttributes (src/unnamed/part_008 lines 332 to 394) ====

/-- AdminDeleteUserAttributesRequest restricted to the fields the handler
reads (the username validation and lookup are handled by the caller model). -/
structure AdminDeleteUserAttributesRequest where
  Username : Option String := none
  UserAttributeNames : Option (List String) := none
deriving DecidableEq

/-- The Keycloak user-update payload adminDeleteUserAttributes builds. -/
structure UserUpdatePayload where
  email : Option String := none
  firstName : Option String := none
  lastName : Option String := none
  emailVerified : Option Bool := none
  attributes : Option AttrMap := none
deriving DecidableEq

/-- Validation pass of adminDeleteUserAttributes: every requested name is
checked mutable then deletable, in order, before any change is made. -/
def validateDeletableNames (names : List String) : Except CognitoException Unit :=
  match names with
  | [] => .ok ()
  | n :: rest => do
    let _ ← validateAttributeMutable n getSchemaAttributeMap
    let _ ← validateAttributeDeletable n getSchemaAttributeMap
    validateDeletableNames rest

/-- One iteration of the standard-attribute switch of
adminDeleteUserAttributes: email, given_name and family_name are cleared to
the empty string, email_verified is set to false, any other name leaves the
payload untouched. -/
def clearStandardAttribute (p : UserUpdatePayload) (attrName : String) : UserUpdatePayload :=
  if attrName == "email" then { p with email := some "" }
  else if attrName == "given_name" then { p with firstName := some "" }
  else if attrName == "family_name" then { p with lastName := some "" }
  else if attrName == "email_verified" then { p with emailVerified := some false }
  else p

/-- One iteration of the custom-attribute loop of adminDeleteUserAttributes:
the requested key, custom: tag stripped, is deleted from the bag. -/
def deleteRequestedKey (m : AttrMap) (attrName : String) : AttrMap :=
  attrDelete m (stripCustom attrName)

/-- The core of adminDeleteUserAttributes on the fetched user: an absent or
empty name list is a no-op returning no update; otherwise, after the
validation pass, the standard switch runs over the names, every requested key
is deleted from the attribute bag, and lastModifiedDate is set to the current
ISO timestamp (the now argument).  Returns the update payload written to
Keycloak, or none when no update call is made. -/
def adminDeleteUserAttributesCore (user : UserRepresentation)
    (UserAttributeNames : Option (List String)) (now : String) :
    Except CognitoException (Option UserUpdatePayload) :=
  match UserAttributeNames with
  | none => .ok none
  | some names =>
    if names.isEmpty then .ok none
    else do
      let _ ← validateDeletableNames names
      let withStandard : UserUpdatePayload := names.foldl clearStandardAttribute {}
      let currentAttributes := names.foldl deleteRequestedKey (user.attributes.getD [])
      let finalAttributes := attrSet currentAttributes "lastModifiedDate" [now]
      .ok (some { withStandard with attributes := some finalAttributes })

-- ==== AdminResetUserPassword (src/unnamed/part_008 lines 426 to 468) ====

/-- The required-actions array adminResetUserPassword writes: UPDATE_PASSWORD
is appended exactly when it is not already present. -/
def resetRequiredActions (user : UserRepresentation) : List String :=
  let currentActions := user.requiredActions.getD []
  if currentActions.contains "UPDATE_PASSWORD" then currentActions
  else currentActions ++ ["UPDATE_PASSWORD"]

/-- Observable outcome of adminResetUserPassword. -/
structure ResetOutcome where
  requiredActionsWritten : List String
  emailAttempted : Bool
  emailDelivered : Bool
deriving DecidableEq

/-- The backend error used to stand for a failed Keycloak update call. -/
def backendUpdateError : CognitoException :=
  { code := "InternalErrorException", message := "Keycloak update failed", httpStatusCode := 500 }

/-- The core of adminResetUserPassword on the fetched user.  The updateFails
argument stands for the Keycloak user-update call failing, the emailFails
argument for the executeActionsEmail call failing.  The notification email is
attempted only for a truthy verified email, inside a try/catch whose catch
block swallows the failure, so the overall result does not depend on
emailFails. -/
def adminResetUserPasswordCore (user : UserRepresentation)
    (updateFails emailFails : Bool) : Except CognitoException ResetOutcome :=
  let requiredActions := resetRequiredActions user
  if updateFails then .error backendUpdateError
  else
    let tries := strTruthy user.email && (user.emailVerified == some true)
    .ok
      { requiredActionsWritten := requiredActions
        emailAttempted := tries
        emailDelivered := tries && !emailFails }

-- ============ UpdateGroup (src/src/handlers/groups.ts lines 387 to 434) ====

/-- UpdateGroupRequest restricted to the fields the handler reads. -/
structure UpdateGroupRequest where
  GroupName : Option String := none
  Description : Option String := none
  Precedence : Option Int := none
  RoleArn : Option String := none
deriving DecidableEq

/-- The Keycloak group-update payload updateGroup builds. -/
structure GroupUpdatePayload where
  name : String
  attributes : AttrMap
deriving DecidableEq

/-- One string-valued if-block of updateGroup: a defined truthy value
replaces the key, a defined empty value deletes the key, an undefined value
leaves the bag untouched. -/
def applyOptionalString (m : AttrMap) (key : String) (o : Option String) : AttrMap :=
  match o with
  | some d => if d == "" then attrDelete m key else attrSet m key [d]
  | none => m

/-- The Precedence if-block of updateGroup: a defined precedence replaces the
key with its decimal string. -/
def applyPrecedence (m : AttrMap) (o : Option Int) : AttrMap :=
  match o with
  | some p => attrSet m "precedence" [toString p]
  | none => m

/-- The payload-construction part of updateGroup: starting from a copy of the
existing attribute bag, the three if-blocks run in order (Description,
Precedence, RoleArn) and the group keeps its name. -/
def updateGroupPayload (groupName : String) (existingAttributes : AttrMap)
    (request : UpdateGroupRequest) : GroupUpdatePayload :=
  { name := groupName
    attributes :=
      applyOptionalString
        (applyPrecedence
          (applyOptionalString existingAttributes "description" request.Description)
          request.Precedence)
        "roleArn" request.RoleArn }

-- ============ Action dispatcher (src/src/handlers/index.ts) ============

/-- A JSON-serializable runtime value as handled by the dispatcher, including
Date objects (by their millisecond timestamp) before serialization. -/
inductive JsonValue where
  | null : JsonValue
  | boolean : Bool → JsonValue
  | num : Int → JsonValue
  | str : String → JsonValue
  | date : Int → JsonValue
  | arr : List JsonValue → JsonValue
  | obj : List (String × JsonValue) → JsonValue

mutual

/-- convertDatesToEpochSeconds from src/src/handlers/index.ts lines 66 to 88:
recursively converts every Date to floor of its millisecond timestamp over
1000, descending through arrays and objects, and leaves other values alone. -/
def convertDatesToEpochSeconds : JsonValue → JsonValue
  | .date ms => .num (Int.fdiv ms 1000)
  | .arr elems => .arr (convertDatesList elems)
  | .obj fields => .obj (convertDatesFields fields)
  | v => v

/-- The array branch of convertDatesToEpochSeconds. -/
def convertDatesList : List JsonValue → List JsonValue
  | [] => []
  | v :: rest => convertDatesToEpochSeconds v :: convertDatesList rest

/-- The object branch of convertDatesToEpochSeconds. -/
def convertDatesFields : List (String × JsonValue) → List (String × JsonValue)
  | [] => []
  | (k, v) :: rest => (k, convertDatesToEpochSeconds v) :: convertDatesFields rest

end

mutual

/-- Whether a value contains a Date anywhere, at any nesting depth. -/
def hasDate : JsonValue → Bool
  | .date _ => true
  | .arr elems => hasDateList elems
  | .obj fields => hasDateFields fields
  | _ => false

/-- hasDate over an array. -/
def hasDateList : List JsonValue → Bool
  | [] => false
  | v :: rest => hasDate v || hasDateList rest

/-- hasDate over object fields. -/
def hasDateFields : List (String × JsonValue) → Bool
  | [] => false
  | (_, v) :: rest => hasDate v || hasDateFields rest

end

/-- The routing header service namespace followed by a dot. -/
def amzServiceDot : String := "AWSCognitoIdentityProviderService."

/-- parseAmzTarget from src/src/handlers/index.ts lines 49 to 58: a falsy
header gives null; a header starting with the exact service namespace and dot
gives the rest of the header; anything else gives null. -/
def parseAmzTarget (header : Option String) : Option String :=
  match header with
  | none => none
  | some h =>
    if h == "" then none
    else if amzServiceDot.data.isPrefixOf h.data then
      some (String.mk (h.data.drop amzServiceDot.length))
    else none

/-- The names registered in the actionHandlers table (src/src/handlers/index.ts
lines 23 to 45). -/
def actionNames : List String :=
  [ "AdminCreateUser", "AdminDeleteUser", "AdminGetUser", "AdminUpdateUserAttributes",
    "AdminSetUserPassword", "AdminEnableUser", "AdminDisableUser", "ListUsers",
    "AdminListGroupsForUser", "AdminAddUserToGroup", "AdminRemoveUserFromGroup",
    "CreateGroup", "DeleteGroup", "GetGroup", "ListGroups", "ListUsersInGroup",
    "UpdateGroup", "DescribeUserPool" ]

/-- createErrorResponse from src/src/handlers/index.ts lines 96 to 104. -/
def createErrorResponse (code message : String) : JsonValue :=
  .obj [("__type", .str code), ("message", .str message)]

/-- What invoking a handler can produce: a result value, a thrown
CognitoException, a thrown ordinary Error, or a thrown non-Error value.  The
JSON body parse happens inside the same try block, so a body parse failure is
a thrown ordinary Error. -/
inductive HandlerOutcome where
  | success : JsonValue → HandlerOutcome
  | cognitoError : String → String → Nat → HandlerOutcome
  | thrownError : String → HandlerOutcome
  | thrownValue : HandlerOutcome

/-- An HTTP response: status code and JSON body. -/
structure HttpResponse where
  status : Nat
  body : JsonValue

/-- dispatchAction from src/src/handlers/index.ts lines 110 to 163, with the
behavior of the selected handler supplied as an oracle.  A falsy parsed
action (absent header, wrong shape, or empty action name) gives MissingAction
400; an action without a registered handler gives InvalidAction 400; a
successful handler result is returned with dates converted and status 200; a
thrown CognitoException maps to its declared code and status; any other
thrown Error maps to InternalErrorException 500 with its message; a thrown
non-Error maps to InternalErrorException 500 with a fixed message. -/
def dispatchAction (header : Option String) (handlers : String → HandlerOutcome) : HttpResponse :=
  match parseAmzTarget header with
  | none =>
    { status := 400, body := createErrorResponse "MissingAction" "Missing or invalid X-Amz-Target header" }
  | some action =>
    if action == "" then
      { status := 400, body := createErrorResponse "MissingAction" "Missing or invalid X-Amz-Target header" }
    else if !(actionNames.contains action) then
      { status := 400, body := createErrorResponse "InvalidAction" ("Action " ++ action ++ " is not supported") }
    else
      match handlers action with
      | .success result => { status := 200, body := convertDatesToEpochSeconds result }
      | .cognitoError code message st => { status := st, body := createErrorResponse code message }
      | .thrownError message => { status := 500, body := createErrorResponse "InternalErrorException" message }
      | .thrownValue => { status := 500, body := createErrorResponse "InternalErrorException" "An unknown error occurred" }

-- ============ Helper lemmas on attribute bags ============

theorem attrGet_nil (k : String) : attrGet [] k = none := rfl

theorem attrGet_cons (p : String × List String) (m : AttrMap) (k : String) :
    attrGet (p :: m) k = if p.1 = k then some p.2 else attrGet m k := by
  by_cases h : p.1 = k
  · unfold attrGet
    rw [List.find?_cons_of_pos]
    · simp [h]
    · simp [h]
  · unfold attrGet
    rw [List.find?_cons_of_neg]
    · simp [h]
    · simp [h]

theorem attrSet_nil (k : String) (v : List String) : attrSet [] k v = [(k, v)] := rfl

theorem attrSet_cons (p : String × List String) (m : AttrMap) (k : String) (v : List String) :
    attrSet (p :: m) k v = if p.1 = k then (k, v) :: m else p :: attrSet m k v := by
  by_cases h : p.1 = k <;> simp [attrSet, h]

theorem attrDelete_nil (k : String) : attrDelete [] k = [] := rfl

theorem attrDelete_cons (p : String × List String) (m : AttrMap) (k : String) :
    attrDelete (p :: m) k = if p.1 = k then attrDelete m k else p :: attrDelete m k := by
  by_cases h : p.1 = k <;> simp [attrDelete, List.filter_cons, h]

theorem attrGet_attrSet_self (m : AttrMap) (k : String) (v : List String) :
    attrGet (attrSet m k v) k = some v := by
  induction m with
  | nil => simp [attrSet_nil, attrGet_cons]
  | cons p rest ih =>
    rw [attrSet_cons]
    by_cases h : p.1 = k
    · rw [if_pos h]
      simp [attrGet_cons]
    · rw [if_neg h]
      simp [attrGet_cons, h, ih]

theorem attrGet_attrSet_ne (m : AttrMap) (k k' : String) (v : List String)
    (h : k' ≠ k) : attrGet (attrSet m k v) k' = attrGet m k' := by
  have hk : k ≠ k' := Ne.symm h
  induction m with
  | nil => simp [attrSet_nil, attrGet_cons, attrGet_nil, hk]
  | cons p rest ih =>
    rw [attrSet_cons]
    by_cases hp : p.1 = k
    · rw [if_pos hp]
      simp [attrGet_cons, hk, hp]
    · rw [if_neg hp]
      simp [attrGet_cons, ih]

theorem attrGet_attrDelete_self (m : AttrMap) (k : String) :
    attrGet (attrDelete m k) k = none := by
  induction m with
  | nil => simp [attrDelete_nil, attrGet_nil]
  | cons p rest ih =>
    rw [attrDelete_cons]
    by_cases h : p.1 = k
    · rw [if_pos h]
      exact ih
    · rw [if_neg h]
      simp [attrGet_cons, h, ih]

theorem attrGet_attrDelete_ne (m : AttrMap) (k k' : String) (h : k' ≠ k) :
    attrGet (attrDelete m k) k' = attrGet m k' := by
  induction m with
  | nil => simp [attrDelete_nil]
  | cons p rest ih =>
    rw [attrDelete_cons]
    by_cases hp : p.1 = k
    · rw [if_pos hp]
      have : p.1 ≠ k' := by rw [hp]; exact Ne.symm h
      simp [attrGet_cons, this, ih]
    · rw [if_neg hp]
      simp [attrGet_cons, ih]

-- ============ Claim theorems ============

/-- C1: the user-to-external conversion (keycloakToCognitoUser and the
AdminGetUser status computation) is total and deterministic (both are plain
Lean functions), and derives the status exactly as: enabled false gives
ARCHIVED regardless of pending required actions; enabled true with
UPDATE_PASSWORD among the required actions gives FORCE_CHANGE_PASSWORD;
enabled true otherwise gives CONFIRMED. -/
theorem userStatusDerivation (user : UserRepresentation) :
    (user.enabled = some false →
      (keycloakToCognitoUser user).UserStatus = some "ARCHIVED"
      ∧ (adminGetUserResponseOf user).UserStatus = some "ARCHIVED")
  ∧ (user.enabled = some true → "UPDATE_PASSWORD" ∈ user.requiredActions.getD [] →
      (keycloakToCognitoUser user).UserStatus = some "FORCE_CHANGE_PASSWORD"
      ∧ (adminGetUserResponseOf user).UserStatus = some "FORCE_CHANGE_PASSWORD")
  ∧ (user.enabled = some true → "UPDATE_PASSWORD" ∉ user.requiredActions.getD [] →
      (keycloakToCognitoUser user).UserStatus = some "CONFIRMED"
      ∧ (adminGetUserResponseOf user).UserStatus = some "CONFIRMED") := by
  refine ⟨fun h => ?_, fun h hm => ?_, fun h hm => ?_⟩
  · simp [keycloakToCognitoUser, adminGetUserResponseOf, h]
  · simp [keycloakToCognitoUser, adminGetUserResponseOf, h, List.contains, hm]
  · simp [keycloakToCognitoUser, adminGetUserResponseOf, h, List.contains, hm]

/-- Witness for C1 at three concrete users, one per status branch. -/
theorem userStatusDerivation_witness :
    ((keycloakToCognitoUser { enabled := some false, requiredActions := some ["UPDATE_PASSWORD"] }).UserStatus = some "ARCHIVED"
      ∧ (adminGetUserResponseOf { enabled := some false, requiredActions := some ["UPDATE_PASSWORD"] }).UserStatus = some "ARCHIVED")
  ∧ ((keycloakToCognitoUser { enabled := some true, requiredActions := some ["UPDATE_PASSWORD"] }).UserStatus = some "FORCE_CHANGE_PASSWORD"
      ∧ (adminGetUserResponseOf { enabled := some true, requiredActions := some ["UPDATE_PASSWORD"] }).UserStatus = some "FORCE_CHANGE_PASSWORD")
  ∧ ((keycloakToCognitoUser { enabled := some true, requiredActions := some [] }).UserStatus = some "CONFIRMED"
      ∧ (adminGetUserResponseOf { enabled := some true, requiredActions := some [] }).UserStatus = some "CONFIRMED") :=
  ⟨(userStatusDerivation _).1 rfl,
   (userStatusDerivation _).2.1 rfl (by decide),
   (userStatusDerivation _).2.2 rfl (by decide)⟩

/-- C2: for every request with a non-empty Username, adminCreateUser builds
the Keycloak create body with enabled true and the UPDATE_PASSWORD required
action always set, whatever the TemporaryPassword field holds, and any
backend user reflecting those two fields converts to a User with Enabled
true and derived status FORCE_CHANGE_PASSWORD. -/
theorem adminCreateUserForcesPasswordChange (request : AdminCreateUserRequest)
    (now : String) (h : strTruthy request.Username = true) :
    ∃ body : KeycloakUserCreateBody,
      adminCreateUserBody request now = .ok body
      ∧ body.enabled = true
      ∧ body.requiredActions = ["UPDATE_PASSWORD"]
      ∧ ∀ created : UserRepresentation,
          created.enabled = some body.enabled →
          created.requiredActions = some body.requiredActions →
          (keycloakToCognitoUser created).Enabled = some true
          ∧ (keycloakToCognitoUser created).UserStatus = some "FORCE_CHANGE_PASSWORD" := by
  match hu : request.Username with
  | none => rw [hu] at h; simp [strTruthy] at h
  | some u =>
    rw [hu] at h
    have hne : ¬(u == "") = true := by
      simp only [strTruthy, Bool.not_eq_true'] at h
      simp [h]
    have hbody : adminCreateUserBody request now = .ok
        { username := u
          email := getAttributeValue request.UserAttributes "email"
          firstName := getAttributeValue request.UserAttributes "given_name"
          lastName := getAttributeValue request.UserAttributes "family_name"
          enabled := true
          emailVerified := (getAttributeValue request.UserAttributes "email_verified" == some "true")
            || (request.MessageAction == some "SUPPRESS")
          attributes := attrSet (cognitoToKeycloakAttributes request.UserAttributes) "lastModifiedDate" [now]
          requiredActions := ["UPDATE_PASSWORD"]
          credentials :=
            match request.TemporaryPassword with
            | some p => if p == "" then none else some [{ type := "password", value := p, temporary := true }]
            | none => none } := by
      simp only [adminCreateUserBody, requireUsername, hu]
      rw [if_neg hne]
      rfl
    refine ⟨_, hbody, rfl, rfl, ?_⟩
    intro created hen hra
    constructor
    · simp [keycloakToCognitoUser, hen]
    · simp [keycloakToCognitoUser, hen, hra, List.contains]

/-- Witness for C2 at a concrete request with an email attribute and no
temporary password. -/
theorem adminCreateUserForcesPasswordChange_witness :
    strTruthy (some "alice") = true
    ∧ ∃ body : KeycloakUserCreateBody,
        adminCreateUserBody
          { Username := some "alice"
            UserAttributes := some [{ Name := some "email", Value := some "a@b.com" }] }
          "2024-01-01T00:00:00.000Z" = .ok body
        ∧ body.enabled = true
        ∧ body.requiredActions = ["UPDATE_PASSWORD"]
        ∧ ∀ created : UserRepresentation,
            created.enabled = some body.enabled →
            created.requiredActions = some body.requiredActions →
            (keycloakToCognitoUser created).Enabled = some true
            ∧ (keycloakToCognitoUser created).UserStatus = some "FORCE_CHANGE_PASSWORD" :=
  ⟨by decide,
   adminCreateUserForcesPasswordChange
     { Username := some "alice"
       UserAttributes := some [{ Name := some "email", Value := some "a@b.com" }] }
     "2024-01-01T00:00:00.000Z" (by decide)⟩

/-- C6: adminResetUserPassword adds UPDATE_PASSWORD to the required actions
exactly when absent (never duplicating it), and once the required-action
update succeeds the operation returns ok whatever the notification email
attempt does. -/
theorem adminResetUserPasswordTwoStep (user : UserRepresentation) (emailFails : Bool) :
    (∃ outcome : ResetOutcome,
        adminResetUserPasswordCore user false emailFails = .ok outcome
        ∧ outcome.requiredActionsWritten = resetRequiredActions user)
    ∧ "UPDATE_PASSWORD" ∈ resetRequiredActions user
    ∧ ((user.requiredActions.getD []).contains "UPDATE_PASSWORD" = true →
        resetRequiredActions user = user.requiredActions.getD [])
    ∧ ((user.requiredActions.getD []).contains "UPDATE_PASSWORD" = false →
        resetRequiredActions user = user.requiredActions.getD [] ++ ["UPDATE_PASSWORD"]) := by
  refine ⟨⟨_, rfl, rfl⟩, ?_, fun hc => ?_, fun hc => ?_⟩
  · by_cases hm : "UPDATE_PASSWORD" ∈ user.requiredActions.getD []
    · simp [resetRequiredActions, hm]
    · simp [resetRequiredActions, hm]
  · have hm : "UPDATE_PASSWORD" ∈ user.requiredActions.getD [] := by
      simpa [List.contains] using hc
    simp [resetRequiredActions, hm]
  · have hm : "UPDATE_PASSWORD" ∉ user.requiredActions.getD [] := by
      simpa [List.contains] using hc
    simp [resetRequiredActions, hm]

/-- Witness for C6 at two concrete users: one without the pending action and
one that already has it, with a failing notification email in both cases. -/
theorem adminResetUserPasswordTwoStep_witness :
    (resetRequiredActions { requiredActions := some ["VERIFY_EMAIL"] }
        = ["VERIFY_EMAIL"] ++ ["UPDATE_PASSWORD"])
    ∧ (resetRequiredActions { requiredActions := some ["UPDATE_PASSWORD"] }
        = ["UPDATE_PASSWORD"])
    ∧ (∃ outcome : ResetOutcome,
        adminResetUserPasswordCore { requiredActions := some ["VERIFY_EMAIL"] } false true = .ok outcome
        ∧ outcome.requiredActionsWritten = resetRequiredActions { requiredActions := some ["VERIFY_EMAIL"] }) :=
  ⟨(adminResetUserPasswordTwoStep { requiredActions := some ["VERIFY_EMAIL"] } true).2.2.2 (by decide),
   (adminResetUserPasswordTwoStep { requiredActions := some ["UPDATE_PASSWORD"] } true).2.2.1 (by decide),
   (adminResetUserPasswordTwoStep { requiredActions := some ["VERIFY_EMAIL"] } true).1⟩

/-- C9: updateGroup preserves the group name and every attribute-bag key
other than the ones named by the supplied request fields; a field left
undefined leaves its key unchanged, and an explicitly empty Description or
RoleArn deletes exactly its own key. -/
theorem updateGroupFrame (groupName : String) (existingAttributes : AttrMap)
    (request : UpdateGroupRequest) (k : String) :
    (updateGroupPayload groupName existingAttributes request).name = groupName
    ∧ (k ≠ "description" → k ≠ "precedence" → k ≠ "roleArn" →
        attrGet (updateGroupPayload groupName existingAttributes request).attributes k
          = attrGet existingAttributes k)
    ∧ (request.Description = none →
        attrGet (updateGroupPayload groupName existingAttributes request).attributes "description"
          = attrGet existingAttributes "description")
    ∧ (request.Precedence = none →
        attrGet (updateGroupPayload groupName existingAttributes request).attributes "precedence"
          = attrGet existingAttributes "precedence")
    ∧ (request.RoleArn = none →
        attrGet (updateGroupPayload groupName existingAttributes request).attributes "roleArn"
          = attrGet existingAttributes "roleArn")
    ∧ (request.Description = some "" →
        attrGet (updateGroupPayload groupName existingAttributes request).attributes "description" = none)
    ∧ (request.RoleArn = some "" →
        attrGet (updateGroupPayload groupName existingAttributes request).attributes "roleArn" = none) := by
  have stepS : ∀ (m : AttrMap) (key : String) (o : Option String) (k' : String), k' ≠ key →
      attrGet (applyOptionalString m key o) k' = attrGet m k' := by
    intro m key o k' hk
    match o with
    | none => rfl
    | some d =>
      show attrGet (if (d == "") = true then attrDelete m key else attrSet m key [d]) k' = attrGet m k'
      by_cases hd : (d == "") = true
      · rw [if_pos hd]
        exact attrGet_attrDelete_ne m key k' hk
      · rw [if_neg hd]
        exact attrGet_attrSet_ne m key k' [d] hk
  have stepP : ∀ (m : AttrMap) (o : Option Int) (k' : String), k' ≠ "precedence" →
      attrGet (applyPrecedence m o) k' = attrGet m k' := by
    intro m o k' hk
    match o with
    | none => rfl
    | some p => exact attrGet_attrSet_ne m "precedence" k' [toString p] hk
  refine ⟨rfl, fun h1 h2 h3 => ?_, fun hD => ?_, fun hP => ?_, fun hR => ?_, fun hD => ?_, fun hR => ?_⟩
  · show attrGet (applyOptionalString (applyPrecedence (applyOptionalString existingAttributes "description" request.Description) request.Precedence) "roleArn" request.RoleArn) k = attrGet existingAttributes k
    rw [stepS _ _ _ _ h3, stepP _ _ _ h2, stepS _ _ _ _ h1]
  · show attrGet (applyOptionalString (applyPrecedence (applyOptionalString existingAttributes "description" request.Description) request.Precedence) "roleArn" request.RoleArn) "description" = attrGet existingAttributes "description"
    rw [stepS _ _ _ _ (by decide), stepP _ _ _ (by decide), hD]
    rfl
  · show attrGet (applyOptionalString (applyPrecedence (applyOptionalString existingAttributes "description" request.Description) request.Precedence) "roleArn" request.RoleArn) "precedence" = attrGet existingAttributes "precedence"
    rw [stepS _ _ _ _ (by decide), hP]
    show attrGet (applyOptionalString existingAttributes "description" request.Description) "precedence" = attrGet existingAttributes "precedence"
    exact stepS _ _ _ _ (by decide)
  · show attrGet (applyOptionalString (applyPrecedence (applyOptionalString existingAttributes "description" request.Description) request.Precedence) "roleArn" request.RoleArn) "roleArn" = attrGet existingAttributes "roleArn"
    rw [hR]
    show attrGet (applyPrecedence (applyOptionalString existingAttributes "description" request.Description) request.Precedence) "roleArn" = attrGet existingAttributes "roleArn"
    rw [stepP _ _ _ (by decide), stepS _ _ _ _ (by decide)]
  · show attrGet (applyOptionalString (applyPrecedence (applyOptionalString existingAttributes "description" request.Description) request.Precedence) "roleArn" request.RoleArn) "description" = none
    rw [stepS _ _ _ _ (by decide), stepP _ _ _ (by decide), hD]
    show attrGet (if ("" == "") = true then attrDelete existingAttributes "description" else attrSet existingAttributes "description" [""]) "description" = none
    rw [if_pos (by decide)]
    exact attrGet_attrDelete_self existingAttributes "description"
  · show attrGet (applyOptionalString (applyPrecedence (applyOptionalString existingAttributes "description" request.Description) request.Precedence) "roleArn" request.RoleArn) "roleArn" = none
    rw [hR]
    show attrGet (if ("" == "") = true then attrDelete (applyPrecedence (applyOptionalString existingAttributes "description" request.Description) request.Precedence) "roleArn" else attrSet (applyPrecedence (applyOptionalString existingAttributes "description" request.Description) request.Precedence) "roleArn" [""]) "roleArn" = none
    rw [if_pos (by decide)]
    exact attrGet_attrDelete_self _ "roleArn"

/-- Witness for C9 at a concrete group, bag and request: the unrelated key
and the unsupplied roleArn key survive, the explicitly empty description is
deleted. -/
theorem updateGroupFrame_witness :
    (attrGet (updateGroupPayload "team" [("description", ["old"]), ("extra", ["x"])]
        { Description := some "", Precedence := some 5 }).attributes "extra"
      = attrGet [("description", ["old"]), ("extra", ["x"])] "extra")
    ∧ (attrGet (updateGroupPayload "team" [("description", ["old"]), ("extra", ["x"])]
        { Description := some "", Precedence := some 5 }).attributes "roleArn"
      = attrGet [("description", ["old"]), ("extra", ["x"])] "roleArn")
    ∧ (attrGet (updateGroupPayload "team" [("description", ["old"]), ("extra", ["x"])]
        { Description := some "", Precedence := some 5 }).attributes "description" = none) :=
  ⟨(updateGroupFrame "team" [("description", ["old"]), ("extra", ["x"])]
      { Description := some "", Precedence := some 5 } "extra").2.1
        (by decide) (by decide) (by decide),
   (updateGroupFrame "team" [("description", ["old"]), ("extra", ["x"])]
      { Description := some "", Precedence := some 5 } "extra").2.2.2.2.1 rfl,
   (updateGroupFrame "team" [("description", ["old"]), ("extra", ["x"])]
      { Description := some "", Precedence := some 5 } "extra").2.2.2.2.2.1 rfl⟩

/-- C8 counterexample: a precedence attribute that fails integer parsing is
not treated as absent; the group converts (no throw) but its Precedence field
holds NaN rather than being undefined. -/
theorem groupPrecedenceNaN_counterexample :
    (keycloakToCognitoGroup { attributes := some [("precedence", ["abc"])] } 0).Precedence
      = some JsNumber.nan
    ∧ (keycloakToCognitoGroup { attributes := some [("precedence", ["abc"])] } 0).Precedence
      ≠ none := by
  constructor
  · rfl
  · decide

/-- C8 amended: keycloakToCognitoGroup is total (it is a plain Lean function
and never throws); description, precedence and the role reference are read
from the attribute bag; absent timestamps default to the current time and an
absent last-modified timestamp defaults to the creation date; an absent or
empty precedence gives an undefined Precedence, and a present non-empty
precedence is parsed with JavaScript parseInt semantics, so a string without
leading digits gives NaN (not undefined, and no throw). -/
theorem groupMapping (group : GroupRepresentation) (s : String) :
    ((keycloakToCognitoGroup group 0).GroupName = group.name)
    ∧ ((keycloakToCognitoGroup group 0).Description
        = attrHead (some (group.attributes.getD [])) "description")
    ∧ ((keycloakToCognitoGroup group 0).RoleArn
        = attrHead (some (group.attributes.getD [])) "roleArn")
    ∧ (attrHead (some (group.attributes.getD [])) "precedence" = none →
        (keycloakToCognitoGroup group 0).Precedence = none)
    ∧ (attrHead (some (group.attributes.getD [])) "precedence" = some "" →
        (keycloakToCognitoGroup group 0).Precedence = none)
    ∧ (attrHead (some (group.attributes.getD [])) "precedence" = some s → s ≠ "" →
        (keycloakToCognitoGroup group 0).Precedence = some (parseIntDec s))
    ∧ (attrHead (some (group.attributes.getD [])) "creationDate" = none →
        (keycloakToCognitoGroup group 0).CreationDate = JsDate.ofMillis 0)
    ∧ (attrHead (some (group.attributes.getD [])) "lastModifiedDate" = none →
        (keycloakToCognitoGroup group 0).LastModifiedDate
          = (keycloakToCognitoGroup group 0).CreationDate) := by
  refine ⟨rfl, rfl, rfl, fun h => ?_, fun h => ?_, fun h hs => ?_, fun h => ?_, fun h => ?_⟩
  · simp [keycloakToCognitoGroup, h]
  · simp [keycloakToCognitoGroup, h]
  · simp [keycloakToCognitoGroup, h, hs]
  · simp [keycloakToCognitoGroup, h]
  · simp [keycloakToCognitoGroup, h]

/-- Witness for C8 at a concrete group carrying all three described
attributes and no timestamps. -/
theorem groupMapping_witness :
    ((keycloakToCognitoGroup
        { name := some "g"
          attributes := some [("description", ["d"]), ("precedence", ["7"]), ("roleArn", ["r"])] } 0).Precedence
      = some (parseIntDec "7"))
    ∧ ((keycloakToCognitoGroup
        { name := some "g"
          attributes := some [("description", ["d"]), ("precedence", ["7"]), ("roleArn", ["r"])] } 0).CreationDate
      = JsDate.ofMillis 0)
    ∧ ((keycloakToCognitoGroup
        { name := some "g"
          attributes := some [("description", ["d"]), ("precedence", ["7"]), ("roleArn", ["r"])] } 0).LastModifiedDate
      = (keycloakToCognitoGroup
        { name := some "g"
          attributes := some [("description", ["d"]), ("precedence", ["7"]), ("roleArn", ["r"])] } 0).CreationDate) :=
  ⟨(groupMapping
      { name := some "g"
        attributes := some [("description", ["d"]), ("precedence", ["7"]), ("roleArn", ["r"])] } "7").2.2.2.2.2.1
      (by decide) (by decide),
   (groupMapping
      { name := some "g"
        attributes := some [("description", ["d"]), ("precedence", ["7"]), ("roleArn", ["r"])] } "7").2.2.2.2.2.2.1
      (by decide),
   (groupMapping
      { name := some "g"
        attributes := some [("description", ["d"]), ("precedence", ["7"]), ("roleArn", ["r"])] } "7").2.2.2.2.2.2.2
      (by decide)⟩

/-- C10: a header that does not start with the exact service-namespace-dot
string, and the header that is exactly that string (empty action name), are
both reported as MissingAction 400, never InvalidAction; the header equal to
the bare namespace-dot behaves exactly like an absent header, and
parseAmzTarget returns a suffix only for headers that are the exact
namespace-dot followed by that suffix. -/
theorem missingActionOnMalformedHeader (handlers : String → HandlerOutcome) (h s : String) :
    (amzServiceDot.data.isPrefixOf h.data = false →
      dispatchAction (some h) handlers
        = { status := 400, body := createErrorResponse "MissingAction" "Missing or invalid X-Amz-Target header" })
    ∧ (dispatchAction (some amzServiceDot) handlers
        = { status := 400, body := createErrorResponse "MissingAction" "Missing or invalid X-Amz-Target header" })
    ∧ (dispatchAction (some amzServiceDot) handlers = dispatchAction none handlers)
    ∧ (parseAmzTarget (some h) = some s → h.data = amzServiceDot.data ++ s.data) := by
  refine ⟨fun hp => ?_, rfl, rfl, fun hps => ?_⟩
  · by_cases he : (h == "") = true
    · simp only [dispatchAction, parseAmzTarget]
      rw [if_pos he]
    · simp only [dispatchAction, parseAmzTarget]
      rw [if_neg he, if_neg (by simp [hp])]
  · have hps' : (if (h == "") = true then none
        else if amzServiceDot.data.isPrefixOf h.data = true then
          some (String.mk (h.data.drop amzServiceDot.length))
        else none) = some s := hps
    by_cases he : (h == "") = true
    · rw [if_pos he] at hps'
      exact Option.noConfusion hps'
    · rw [if_neg he] at hps'
      by_cases hp : amzServiceDot.data.isPrefixOf h.data = true
      · rw [if_pos hp] at hps'
        have hpre : amzServiceDot.data <+: h.data := List.isPrefixOf_iff_prefix.mp hp
        have happ : amzServiceDot.data ++ h.data.drop amzServiceDot.data.length = h.data :=
          List.prefix_iff_eq_append.mp hpre
        have hs : s = String.mk (h.data.drop amzServiceDot.length) :=
          (Option.some_inj.mp hps').symm
        rw [hs]
        exact happ.symm
      · rw [if_neg hp] at hps'
        exact Option.noConfusion hps' 

/-- Witness for C10 at a concrete header missing the namespace. -/
theorem missingActionOnMalformedHeader_witness :
    (dispatchAction (some "SomethingElse.ListUsers") (fun _ => HandlerOutcome.thrownValue)
      = { status := 400, body := createErrorResponse "MissingAction" "Missing or invalid X-Amz-Target header" })
    ∧ ("AWSCognitoIdentityProviderService.ListUsers".data
        = amzServiceDot.data ++ "ListUsers".data) :=
  ⟨(missingActionOnMalformedHeader (fun _ => HandlerOutcome.thrownValue)
      "SomethingElse.ListUsers" "ListUsers").1 (by decide),
   (missingActionOnMalformedHeader (fun _ => HandlerOutcome.thrownValue)
      "AWSCognitoIdentityProviderService.ListUsers" "ListUsers").2.2.2 (by decide)⟩

mutual

theorem hasDate_convert : (v : JsonValue) → hasDate (convertDatesToEpochSeconds v) = false
  | .null => rfl
  | .boolean _ => rfl
  | .num _ => rfl
  | .str _ => rfl
  | .date _ => rfl
  | .arr elems => by
    rw [show convertDatesToEpochSeconds (.arr elems) = .arr (convertDatesList elems) from by
      simp [convertDatesToEpochSeconds]]
    show hasDateList (convertDatesList elems) = false
    exact hasDateList_convert elems
  | .obj fields => by
    rw [show convertDatesToEpochSeconds (.obj fields) = .obj (convertDatesFields fields) from by
      simp [convertDatesToEpochSeconds]]
    show hasDateFields (convertDatesFields fields) = false
    exact hasDateFields_convert fields

theorem hasDateList_convert : (l : List JsonValue) → hasDateList (convertDatesList l) = false
  | [] => rfl
  | v :: rest => by
    rw [show convertDatesList (v :: rest)
        = convertDatesToEpochSeconds v :: convertDatesList rest from by
      simp [convertDatesList]]
    show (hasDate (convertDatesToEpochSeconds v) || hasDateList (convertDatesList rest)) = false
    rw [hasDate_convert v, hasDateList_convert rest]
    rfl

theorem hasDateFields_convert : (l : List (String × JsonValue)) → hasDateFields (convertDatesFields l) = false
  | [] => rfl
  | (k, v) :: rest => by
    rw [show convertDatesFields ((k, v) :: rest)
        = (k, convertDatesToEpochSeconds v) :: convertDatesFields rest from by
      simp [convertDatesFields]]
    show (hasDate (convertDatesToEpochSeconds v) || hasDateFields (convertDatesFields rest)) = false
    rw [hasDate_convert v, hasDateFields_convert rest]
    rfl

end

/-- C7: the dispatcher returns MissingAction 400 when the routing header is
absent or malformed (including an empty action name), InvalidAction 400 when
the action has no registered handler, and otherwise invokes the handler and
returns its result with status 200 after recursively converting every Date
at any nesting depth to integer epoch seconds; a thrown CognitoException maps
to its declared code and declared HTTP status, a thrown Error maps to
InternalErrorException 500 with its message, and a thrown non-Error value
maps to InternalErrorException 500 with a fixed message. -/
theorem dispatchActionContract (handlers : String → HandlerOutcome) (hdr : Option String)
    (a code msg : String) (st : Nat) (result : JsonValue) (ms : Int) :
    (parseAmzTarget hdr = none → dispatchAction hdr handlers
      = { status := 400, body := createErrorResponse "MissingAction" "Missing or invalid X-Amz-Target header" })
    ∧ (parseAmzTarget hdr = some "" → dispatchAction hdr handlers
      = { status := 400, body := createErrorResponse "MissingAction" "Missing or invalid X-Amz-Target header" })
    ∧ (parseAmzTarget hdr = some a → a ≠ "" → actionNames.contains a = false →
        dispatchAction hdr handlers
          = { status := 400, body := createErrorResponse "InvalidAction" ("Action " ++ a ++ " is not supported") })
    ∧ (parseAmzTarget hdr = some a → a ≠ "" → actionNames.contains a = true →
        handlers a = .success result →
        dispatchAction hdr handlers
          = { status := 200, body := convertDatesToEpochSeconds result })
    ∧ (parseAmzTarget hdr = some a → a ≠ "" → actionNames.contains a = true →
        handlers a = .cognitoError code msg st →
        dispatchAction hdr handlers = { status := st, body := createErrorResponse code msg })
    ∧ (parseAmzTarget hdr = some a → a ≠ "" → actionNames.contains a = true →
        handlers a = .thrownError msg →
        dispatchAction hdr handlers
          = { status := 500, body := createErrorResponse "InternalErrorException" msg })
    ∧ (parseAmzTarget hdr = some a → a ≠ "" → actionNames.contains a = true →
        handlers a = .thrownValue →
        dispatchAction hdr handlers
          = { status := 500, body := createErrorResponse "InternalErrorException" "An unknown error occurred" })
    ∧ hasDate (convertDatesToEpochSeconds result) = false
    ∧ convertDatesToEpochSeconds (.date ms) = .num (Int.fdiv ms 1000) := by
  refine ⟨fun hp => ?_, fun hp => ?_, fun hp ha hc => ?_, fun hp ha hc hh => ?_,
    fun hp ha hc hh => ?_, fun hp ha hc hh => ?_, fun hp ha hc hh => ?_,
    hasDate_convert result, by simp [convertDatesToEpochSeconds]⟩
  · simp [dispatchAction, hp]
  · simp [dispatchAction, hp]
  · have hc' : a ∉ actionNames := by simpa [List.contains] using hc
    simp [dispatchAction, hp, ha, hc']
  · have hc' : a ∈ actionNames := by simpa [List.contains] using hc
    simp [dispatchAction, hp, ha, hc', hh]
  · have hc' : a ∈ actionNames := by simpa [List.contains] using hc
    simp [dispatchAction, hp, ha, hc', hh]
  · have hc' : a ∈ actionNames := by simpa [List.contains] using hc
    simp [dispatchAction, hp, ha, hc', hh]
  · have hc' : a ∈ actionNames := by simpa [List.contains] using hc
    simp [dispatchAction, hp, ha, hc', hh]

/-- Witness for C7: a registered action whose handler returns a nested object
holding a Date is answered with 200 and the Date converted to epoch seconds,
and a malformed header is answered with MissingAction. -/
theorem dispatchActionContract_witness :
    dispatchAction (some "AWSCognitoIdentityProviderService.ListUsers")
        (fun _ => HandlerOutcome.success (.obj [("Users", .arr [.obj [("UserCreateDate", .date 1700000001500)]])]))
      = { status := 200,
          body := .obj [("Users", .arr [.obj [("UserCreateDate", .num 1700000001)]])] }
    ∧ dispatchAction (some "AWSCognitoIdentityProviderService.")
        (fun _ => HandlerOutcome.success (.obj []))
      = { status := 400, body := createErrorResponse "MissingAction" "Missing or invalid X-Amz-Target header" } := by
  constructor
  · have h := (dispatchActionContract
      (fun _ => HandlerOutcome.success (.obj [("Users", .arr [.obj [("UserCreateDate", .date 1700000001500)]])]))
      (some "AWSCognitoIdentityProviderService.ListUsers")
      "ListUsers" "x" "x" 0
      (.obj [("Users", .arr [.obj [("UserCreateDate", .date 1700000001500)]])]) 0).2.2.2.1
      (by rfl) (by decide) (by decide) rfl
    rw [h]
    rfl
  · exact (dispatchActionContract
      (fun _ => HandlerOutcome.success (.obj []))
      (some "AWSCognitoIdentityProviderService.")
      "x" "x" "x" 0 (.obj []) 0).2.1 (by rfl)

theorem jsSlice_length_of_bounds {α : Type} (l : List α) (s e : Int)
    (h0 : 0 ≤ s) (hse : s ≤ e) (he : e ≤ (l.length : Int)) :
    ((jsSlice l s e).length : Int) = e - s := by
  have hlo : (if s < 0 then max ((l.length : Int) + s) 0 else min s (l.length : Int)) = s := by
    rw [if_neg (not_lt.mpr h0)]
    exact min_eq_left (le_trans hse he)
  have hhi : (if e < 0 then max ((l.length : Int) + e) 0 else min e (l.length : Int)) = e := by
    rw [if_neg (not_lt.mpr (le_trans h0 hse))]
    exact min_eq_left he
  simp only [jsSlice, hlo, hhi, List.length_take, List.length_drop]
  omega

/-- C3 counterexample: AdminListGroupsForUser with page size 1 over a
membership list of exactly one group returns exactly one item (equal to the
page size) and still no pagination token, refuting the stated equivalence for
this handler. -/
theorem adminListGroupsTokenGap_counterexample :
    jsOrDefault (some 1) 60 = 1
    ∧ (adminListGroupsForUserCore { Username := some "u", Limit := some 1 }
        [{ id := some "gid", name := some "g" }] id 0).Groups.length = 1
    ∧ (adminListGroupsForUserCore { Username := some "u", Limit := some 1 }
        [{ id := some "gid", name := some "g" }] id 0).NextToken = none :=
  ⟨rfl, rfl, rfl⟩

/-- C3 amended: for ListUsers, ListGroups and ListUsersInGroup the response
carries a pagination token exactly when the number of items returned equals
the requested page size N (Limit, defaulting to 60 when falsy), and the token
is the decimal string of offset plus N.  For AdminListGroupsForUser, which
slices a fully fetched list client side, the token is emitted exactly when
offset plus N is strictly below the total number of groups; when the token is
emitted, exactly N items are returned and the token is the decimal string of
offset plus N, but when exactly N items remain the handler returns N items
with no token. -/
theorem listPaginationToken (uReq : ListUsersRequest) (gReq : ListGroupsRequest)
    (mReq : ListUsersInGroupRequest) (aReq : AdminListGroupsForUserRequest)
    (users : List UserRepresentation) (groups : List GroupRepresentation)
    (members : List UserRepresentation) (allGroups : List GroupRepresentation)
    (fetchFull : GroupRepresentation → GroupRepresentation) (now : Int) (off : Int) :
    ((listUsersCore uReq users).Users.length = users.length
      ∧ ((listUsersCore uReq users).PaginationToken.isSome
          ↔ (users.length : Int) = jsOrDefault uReq.Limit 60)
      ∧ (tokenOffset uReq.PaginationToken = .int off →
          (users.length : Int) = jsOrDefault uReq.Limit 60 →
          (listUsersCore uReq users).PaginationToken
            = some (toString (off + jsOrDefault uReq.Limit 60))))
    ∧ ((listGroupsCore gReq groups now).Groups.length = groups.length
      ∧ ((listGroupsCore gReq groups now).NextToken.isSome
          ↔ (groups.length : Int) = jsOrDefault gReq.Limit 60)
      ∧ (tokenOffset gReq.NextToken = .int off →
          (groups.length : Int) = jsOrDefault gReq.Limit 60 →
          (listGroupsCore gReq groups now).NextToken
            = some (toString (off + jsOrDefault gReq.Limit 60))))
    ∧ ((listUsersInGroupCore mReq members).Users.length = members.length
      ∧ ((listUsersInGroupCore mReq members).NextToken.isSome
          ↔ (members.length : Int) = jsOrDefault mReq.Limit 60)
      ∧ (tokenOffset mReq.NextToken = .int off →
          (members.length : Int) = jsOrDefault mReq.Limit 60 →
          (listUsersInGroupCore mReq members).NextToken
            = some (toString (off + jsOrDefault mReq.Limit 60))))
    ∧ (tokenOffset aReq.NextToken = .int off → 0 ≤ off →
        0 < jsOrDefault aReq.Limit 60 →
        ((adminListGroupsForUserCore aReq allGroups fetchFull now).NextToken.isSome
          ↔ off + jsOrDefault aReq.Limit 60 < (allGroups.length : Int))
        ∧ (off + jsOrDefault aReq.Limit 60 < (allGroups.length : Int) →
            ((adminListGroupsForUserCore aReq allGroups fetchFull now).Groups.length : Int)
              = jsOrDefault aReq.Limit 60
            ∧ (adminListGroupsForUserCore aReq allGroups fetchFull now).NextToken
              = some (toString (off + jsOrDefault aReq.Limit 60)))) := by
  refine ⟨⟨by simp [listUsersCore], ?_, fun hOff hl => ?_⟩,
    ⟨by simp [listGroupsCore], ?_, fun hOff hl => ?_⟩,
    ⟨by simp [listUsersInGroupCore], ?_, fun hOff hl => ?_⟩,
    fun hOff h0 hN => ⟨?_, fun hlt => ⟨?_, ?_⟩⟩⟩
  · by_cases hl : (users.length : Int) = jsOrDefault uReq.Limit 60 <;>
      simp [listUsersCore, hl]
  · simp [listUsersCore, hl, hOff, JsNumber.addInt, JsNumber.asString]
  · by_cases hl : (groups.length : Int) = jsOrDefault gReq.Limit 60 <;>
      simp [listGroupsCore, hl]
  · simp [listGroupsCore, hl, hOff, JsNumber.addInt, JsNumber.asString]
  · by_cases hl : (members.length : Int) = jsOrDefault mReq.Limit 60 <;>
      simp [listUsersInGroupCore, hl]
  · simp [listUsersInGroupCore, hl, hOff, JsNumber.addInt, JsNumber.asString]
  · by_cases hlt : off + jsOrDefault aReq.Limit 60 < (allGroups.length : Int) <;>
      simp [adminListGroupsForUserCore, hOff, JsNumber.addInt, JsNumber.asString, hlt]
  · have hse : off ≤ off + jsOrDefault aReq.Limit 60 := by omega
    have h1 := jsSlice_length_of_bounds allGroups off (off + jsOrDefault aReq.Limit 60)
      h0 hse (le_of_lt hlt)
    simp only [adminListGroupsForUserCore, hOff, JsNumber.addInt, JsNumber.toIntZero,
      List.length_map]
    rw [h1]
    omega
  · simp [adminListGroupsForUserCore, hOff, JsNumber.addInt, JsNumber.asString, hlt]

/-- Witness for C3 at concrete inputs: a ListUsers page of exactly the
requested size 2 carries token 2, and an AdminListGroupsForUser page of size
1 over 2 groups returns 1 item with token 1. -/
theorem listPaginationToken_witness :
    ((listUsersCore { Limit := some 2 } [{}, {}]).PaginationToken
      = some (toString ((0 : Int) + jsOrDefault (some 2) 60)))
    ∧ (((adminListGroupsForUserCore { Limit := some 1 }
          [{ name := some "a" }, { name := some "b" }] id 0).Groups.length : Int)
        = jsOrDefault (some 1) 60
      ∧ (adminListGroupsForUserCore { Limit := some 1 }
          [{ name := some "a" }, { name := some "b" }] id 0).NextToken
        = some (toString ((0 : Int) + jsOrDefault (some 1) 60))) :=
  ⟨(listPaginationToken { Limit := some 2 } {} {} { Limit := some 1 }
      [{}, {}] [] [] [{ name := some "a" }, { name := some "b" }] id 0 0).1.2.2
      rfl (by decide),
   ((listPaginationToken { Limit := some 2 } {} {} { Limit := some 1 }
      [{}, {}] [] [] [{ name := some "a" }, { name := some "b" }] id 0 0).2.2.2
      rfl (by decide) (by decide)).2 (by decide)⟩

theorem clearStandardAttribute_email (p : UserUpdatePayload) (n : String) :
    (clearStandardAttribute p n).email = if n = "email" then some "" else p.email := by
  unfold clearStandardAttribute
  by_cases h1 : n = "email"
  · subst h1; simp
  · by_cases h2 : n = "given_name"
    · subst h2; simp
    · by_cases h3 : n = "family_name"
      · subst h3; simp
      · by_cases h4 : n = "email_verified"
        · subst h4; simp
        · simp [h1, h2, h3, h4]

theorem clearStandardAttribute_firstName (p : UserUpdatePayload) (n : String) :
    (clearStandardAttribute p n).firstName = if n = "given_name" then some "" else p.firstName := by
  unfold clearStandardAttribute
  by_cases h1 : n = "email"
  · subst h1; simp
  · by_cases h2 : n = "given_name"
    · subst h2; simp
    · by_cases h3 : n = "family_name"
      · subst h3; simp
      · by_cases h4 : n = "email_verified"
        · subst h4; simp
        · simp [h1, h2, h3, h4]

theorem clearStandardAttribute_lastName (p : UserUpdatePayload) (n : String) :
    (clearStandardAttribute p n).lastName = if n = "family_name" then some "" else p.lastName := by
  unfold clearStandardAttribute
  by_cases h1 : n = "email"
  · subst h1; simp
  · by_cases h2 : n = "given_name"
    · subst h2; simp
    · by_cases h3 : n = "family_name"
      · subst h3; simp
      · by_cases h4 : n = "email_verified"
        · subst h4; simp
        · simp [h1, h2, h3, h4]

theorem clearStandardAttribute_emailVerified (p : UserUpdatePayload) (n : String) :
    (clearStandardAttribute p n).emailVerified
      = if n = "email_verified" then some false else p.emailVerified := by
  unfold clearStandardAttribute
  by_cases h1 : n = "email"
  · subst h1; simp
  · by_cases h2 : n = "given_name"
    · subst h2; simp
    · by_cases h3 : n = "family_name"
      · subst h3; simp
      · by_cases h4 : n = "email_verified"
        · subst h4; simp
        · simp [h1, h2, h3, h4]

theorem foldl_clear_firstName (names : List String) (acc : UserUpdatePayload) :
    (names.foldl clearStandardAttribute acc).firstName
      = if "given_name" ∈ names then some "" else acc.firstName := by
  induction names generalizing acc with
  | nil => simp
  | cons n rest ih =>
    rw [List.foldl_cons, ih]
    by_cases h : n = "given_name"
    · subst h
      simp [clearStandardAttribute_firstName]
    · simp [clearStandardAttribute_firstName, h, List.mem_cons, Ne.symm h]

theorem foldl_clear_lastName (names : List String) (acc : UserUpdatePayload) :
    (names.foldl clearStandardAttribute acc).lastName
      = if "family_name" ∈ names then some "" else acc.lastName := by
  induction names generalizing acc with
  | nil => simp
  | cons n rest ih =>
    rw [List.foldl_cons, ih]
    by_cases h : n = "family_name"
    · subst h
      simp [clearStandardAttribute_lastName]
    · simp [clearStandardAttribute_lastName, h, List.mem_cons, Ne.symm h]

theorem foldl_clear_emailVerified (names : List String) (acc : UserUpdatePayload) :
    (names.foldl clearStandardAttribute acc).emailVerified
      = if "email_verified" ∈ names then some false else acc.emailVerified := by
  induction names generalizing acc with
  | nil => simp
  | cons n rest ih =>
    rw [List.foldl_cons, ih]
    by_cases h : n = "email_verified"
    · subst h
      simp [clearStandardAttribute_emailVerified]
    · simp [clearStandardAttribute_emailVerified, h, List.mem_cons, Ne.symm h]

theorem foldl_deleteRequestedKey (names : List String) (m : AttrMap) (k : String) :
    attrGet (names.foldl deleteRequestedKey m) k
      = if k ∈ names.map stripCustom then none else attrGet m k := by
  induction names generalizing m with
  | nil => simp
  | cons n rest ih =>
    rw [List.foldl_cons, ih]
    by_cases hr : k ∈ rest.map stripCustom
    · simp [hr, List.mem_cons]
    · by_cases hk : k = stripCustom n
      · subst hk
        simp [hr, deleteRequestedKey, attrGet_attrDelete_self]
      · simp [hr, deleteRequestedKey, attrGet_attrDelete_ne m (stripCustom n) k hk,
          List.map_cons, List.mem_cons, hk]

theorem validateDeletableNames_error_of_mem (names : List String) (n₀ : String)
    (hmem : n₀ ∈ names)
    (hfail : ¬(validateAttributeMutable n₀ getSchemaAttributeMap = .ok ()
        ∧ validateAttributeDeletable n₀ getSchemaAttributeMap = .ok ())) :
    ∃ e, validateDeletableNames names = .error e := by
  induction names with
  | nil => cases hmem
  | cons n rest ih =>
    cases hvm : validateAttributeMutable n getSchemaAttributeMap with
    | error e => exact ⟨e, by simp [validateDeletableNames, hvm, Except.bind, bind]⟩
    | ok u =>
      cases u
      cases hvd : validateAttributeDeletable n getSchemaAttributeMap with
      | error e => exact ⟨e, by simp [validateDeletableNames, hvm, hvd, Except.bind, bind]⟩
      | ok u2 =>
        cases u2
        rcases List.mem_cons.mp hmem with h | h
        · subst h
          exact absurd ⟨hvm, hvd⟩ hfail
        · obtain ⟨e, he⟩ := ih h
          exact ⟨e, by simp [validateDeletableNames, hvm, hvd, he, Except.bind, bind]⟩

theorem adminDeleteCore_run (user : UserRepresentation) (names : List String) (now : String)
    (hne : names.isEmpty = false) :
    (∀ e, validateDeletableNames names = .error e →
      adminDeleteUserAttributesCore user (some names) now = .error e)
    ∧ (validateDeletableNames names = .ok () →
      adminDeleteUserAttributesCore user (some names) now = .ok (some
        { names.foldl clearStandardAttribute {} with
          attributes := some (attrSet (names.foldl deleteRequestedKey (user.attributes.getD []))
            "lastModifiedDate" [now]) })) := by
  constructor
  · intro e he
    simp [adminDeleteUserAttributesCore, hne, he, Except.bind, bind]
  · intro hv
    simp [adminDeleteUserAttributesCore, hne, hv, Except.bind, bind]

/-- C5 counterexample: deleting the standard attribute email_verified (not
the subject identifier, not required by the schema) does not clear it to the
empty string: the written payload sets the boolean emailVerified to false,
sets no string field at all, and removes the key from the attribute bag. -/
theorem adminDeleteEmailVerified_counterexample :
    adminDeleteUserAttributesCore { attributes := some [("email_verified", ["true"])] }
      (some ["email_verified"]) "T"
    = .ok (some { email := none, firstName := none, lastName := none,
                  emailVerified := some false,
                  attributes := some [("lastModifiedDate", ["T"])] }) := rfl

/-- C5 amended: a request naming the subject identifier sub never succeeds
and, when sub is the first name, fails with the immutable-attribute
validation error; a request naming a schema-required attribute (email) never
succeeds and, when email is the first name, fails with the
cannot-delete-required-attribute error; when validation passes, given_name
and family_name are cleared to the empty string, email_verified is set to
false, and every requested key (custom: tag stripped) is removed from the
attribute bag; other standard attributes are only removed from the bag, not
cleared to an empty string. -/
theorem adminDeleteUserAttributesPolicy (user : UserRepresentation)
    (names : List String) (now : String) :
    ("sub" ∈ names → ∃ e, adminDeleteUserAttributesCore user (some names) now = .error e)
    ∧ (∀ rest : List String, names = "sub" :: rest →
        adminDeleteUserAttributesCore user (some names) now
          = .error { code := "InvalidParameterException",
                     message := "Cannot modify the immutable attribute sub.",
                     httpStatusCode := 400 })
    ∧ ("email" ∈ names → ∃ e, adminDeleteUserAttributesCore user (some names) now = .error e)
    ∧ (∀ rest : List String, names = "email" :: rest →
        adminDeleteUserAttributesCore user (some names) now
          = .error { code := "InvalidParameterException",
                     message := "Cannot delete the required attribute email.",
                     httpStatusCode := 400 })
    ∧ (validateDeletableNames names = .ok () → names ≠ [] →
        ∃ p : UserUpdatePayload,
          adminDeleteUserAttributesCore user (some names) now = .ok (some p)
          ∧ ("given_name" ∈ names → p.firstName = some "")
          ∧ ("family_name" ∈ names → p.lastName = some "")
          ∧ ("email_verified" ∈ names → p.emailVerified = some false)
          ∧ (∀ n ∈ names, stripCustom n ≠ "lastModifiedDate" →
              attrGet (p.attributes.getD []) (stripCustom n) = none)) := by
  refine ⟨fun hmem => ?_, fun rest hr => ?_, fun hmem => ?_, fun rest hr => ?_,
    fun hv hne0 => ?_⟩
  · have hne : names.isEmpty = false := by
      cases names with
      | nil => cases hmem
      | cons a b => rfl
    obtain ⟨e, he⟩ := validateDeletableNames_error_of_mem names "sub" hmem (by
      rintro ⟨h1, h2⟩
      rw [show validateAttributeMutable "sub" getSchemaAttributeMap
          = Except.error { code := "InvalidParameterException",
                           message := "Cannot modify the immutable attribute sub.",
                           httpStatusCode := 400 } from rfl] at h1
      exact Except.noConfusion h1)
    exact ⟨e, (adminDeleteCore_run user names now hne).1 e he⟩
  · subst hr
    rfl
  · have hne : names.isEmpty = false := by
      cases names with
      | nil => cases hmem
      | cons a b => rfl
    obtain ⟨e, he⟩ := validateDeletableNames_error_of_mem names "email" hmem (by
      rintro ⟨h1, h2⟩
      rw [show validateAttributeDeletable "email" getSchemaAttributeMap
          = Except.error { code := "InvalidParameterException",
                           message := "Cannot delete the required attribute email.",
                           httpStatusCode := 400 } from rfl] at h2
      exact Except.noConfusion h2)
    exact ⟨e, (adminDeleteCore_run user names now hne).1 e he⟩
  · subst hr
    rfl
  · have hne : names.isEmpty = false := by
      cases names with
      | nil => exact absurd rfl hne0
      | cons a b => rfl
    refine ⟨_, (adminDeleteCore_run user names now hne).2 hv, ?_, ?_, ?_, ?_⟩
    · intro hm
      show (names.foldl clearStandardAttribute {}).firstName = some ""
      rw [foldl_clear_firstName]
      simp [hm]
    · intro hm
      show (names.foldl clearStandardAttribute {}).lastName = some ""
      rw [foldl_clear_lastName]
      simp [hm]
    · intro hm
      show (names.foldl clearStandardAttribute {}).emailVerified = some false
      rw [foldl_clear_emailVerified]
      simp [hm]
    · intro n hn hlmd
      show attrGet (attrSet (names.foldl deleteRequestedKey (user.attributes.getD []))
        "lastModifiedDate" [now]) (stripCustom n) = none
      rw [attrGet_attrSet_ne _ _ _ _ hlmd, foldl_deleteRequestedKey]
      rw [if_pos (List.mem_map.mpr ⟨n, hn, rfl⟩)]

/-- Witness for C5: deleting the custom attribute custom:nickname and the
standard attribute given_name from a user that has both succeeds, clears the
first name to the empty string and removes both keys from the bag. -/
theorem adminDeleteUserAttributesPolicy_witness :
    ∃ p : UserUpdatePayload,
      adminDeleteUserAttributesCore
        { attributes := some [("nickname", ["Bob"]), ("given_name", ["G"])] }
        (some ["given_name", "custom:nickname"]) "T" = .ok (some p)
      ∧ ("given_name" ∈ ["given_name", "custom:nickname"] → p.firstName = some "")
      ∧ ("family_name" ∈ ["given_name", "custom:nickname"] → p.lastName = some "")
      ∧ ("email_verified" ∈ ["given_name", "custom:nickname"] → p.emailVerified = some false)
      ∧ (∀ n ∈ ["given_name", "custom:nickname"], stripCustom n ≠ "lastModifiedDate" →
          attrGet (p.attributes.getD []) (stripCustom n) = none) :=
  (adminDeleteUserAttributesPolicy
    { attributes := some [("nickname", ["Bob"]), ("given_name", ["G"])] }
    ["given_name", "custom:nickname"] "T").2.2.2.2 rfl (by decide)

-- ============ C4: attribute round trip ============

/-- The stripped name a cognitoToKeycloakAttributes iteration would use for
an entry: defined for entries with a truthy Name. -/
def strippedNameOf (a : AttributeType) : Option String :=
  match a.Name with
  | some n => if n == "" then none else some (stripCustom n)
  | none => none

/-- The stripped names of the entries of an attribute list. -/
def strippedNamesOf (L : List AttributeType) : List String := L.filterMap strippedNameOf

/-- The bag entry cognitoToKeycloakAttributes stores for an entry: defined
for entries with a truthy Name and a defined Value. -/
def effectivePair (a : AttributeType) : Option (String × List String) :=
  match a.Name, a.Value with
  | some n, some v => if n == "" then none else some (stripCustom n, [v])
  | _, _ => none

/-- One iteration of cognitoToKeycloakAttributes. -/
def insertAttribute (m : AttrMap) (attr : AttributeType) : AttrMap :=
  match attr.Name, attr.Value with
  | some n, some v => if n == "" then m else attrSet m (stripCustom n) [v]
  | _, _ => m

/-- The backend user equivalent of an attribute list L: the attribute bag is
cognitoToKeycloakAttributes of L and the top-level Keycloak fields are
populated from L the way adminCreateUser populates them (src/unnamed/part_008
lines 53 to 70, with no MessageAction and no temporary password). -/
def backendUserOf (L : List AttributeType) : UserRepresentation :=
  { email := getAttributeValue (some L) "email"
    firstName := getAttributeValue (some L) "given_name"
    lastName := getAttributeValue (some L) "family_name"
    emailVerified := some (getAttributeValue (some L) "email_verified" == some "true")
    enabled := some true
    requiredActions := some ["UPDATE_PASSWORD"]
    attributes := some (cognitoToKeycloakAttributes (some L)) }

/-- The round trip of C4: convert the list to the backend representation and
back to an external attribute list. -/
def roundTripAttributes (L : List AttributeType) : List AttributeType :=
  keycloakToCognitoAttributes (backendUserOf L)

theorem stripCustom_tagged (x : String) : stripCustom ("custom:" ++ x) = x := by
  unfold stripCustom
  rw [String.data_append]
  show String.mk x.data = x
  rfl

theorem cognitoToKeycloakAttributes_eq_foldl (L : List AttributeType) :
    cognitoToKeycloakAttributes (some L) = L.foldl insertAttribute [] := rfl

theorem attrSet_append_of_fresh (acc : AttrMap) (k : String) (v : List String)
    (h : ∀ p ∈ acc, p.1 ≠ k) : attrSet acc k v = acc ++ [(k, v)] := by
  induction acc with
  | nil => rfl
  | cons p rest ih =>
    rw [attrSet_cons, if_neg (h p (List.mem_cons_self p rest))]
    rw [ih (fun q hq => h q (List.mem_cons_of_mem p hq))]
    rfl

theorem strippedNamesOf_cons (a : AttributeType) (L : List AttributeType) :
    strippedNamesOf (a :: L)
      = match strippedNameOf a with
        | some s => s :: strippedNamesOf L
        | none => strippedNamesOf L := by
  unfold strippedNamesOf
  rw [List.filterMap_cons]
  match strippedNameOf a with
  | some s => rfl
  | none => rfl

theorem foldl_insertAttribute_eq_append (L : List AttributeType) (acc : AttrMap)
    (hfresh : ∀ p ∈ acc, p.1 ∉ strippedNamesOf L)
    (hnodup : (strippedNamesOf L).Nodup) :
    L.foldl insertAttribute acc = acc ++ L.filterMap effectivePair := by
  induction L generalizing acc with
  | nil => simp
  | cons a rest ih =>
    rw [List.foldl_cons, List.filterMap_cons]
    match hname : a.Name, hval : a.Value with
    | some n, some v =>
      by_cases hne : (n == "") = true
      · have hstep : insertAttribute acc a = acc := by
          unfold insertAttribute
          rw [hname, hval]
          show (if (n == "") = true then acc else attrSet acc (stripCustom n) [v]) = acc
          rw [if_pos hne]
        have hpair : effectivePair a = none := by
          unfold effectivePair
          rw [hname, hval]
          show (if (n == "") = true then none else some (stripCustom n, [v]))
            = (none : Option (String × List String))
          rw [if_pos hne]
        have hsn : strippedNameOf a = none := by
          unfold strippedNameOf
          rw [hname]
          show (if (n == "") = true then none else some (stripCustom n)) = (none : Option String)
          rw [if_pos hne]
        rw [hstep, hpair]
        have hrest : strippedNamesOf (a :: rest) = strippedNamesOf rest := by
          rw [strippedNamesOf_cons, hsn]
        exact ih acc (fun p hp => by
          have := hfresh p hp
          rwa [hrest] at this) (by rwa [hrest] at hnodup)
      · have hsn : strippedNameOf a = some (stripCustom n) := by
          unfold strippedNameOf
          rw [hname]
          show (if (n == "") = true then none else some (stripCustom n)) = some (stripCustom n)
          rw [if_neg hne]
        have hcons : strippedNamesOf (a :: rest) = stripCustom n :: strippedNamesOf rest := by
          rw [strippedNamesOf_cons, hsn]
        have hfreshn : ∀ p ∈ acc, p.1 ≠ stripCustom n := by
          intro p hp
          have := hfresh p hp
          rw [hcons] at this
          exact fun hh => this (hh ▸ List.mem_cons_self _ _)
        have hstep : insertAttribute acc a = acc ++ [(stripCustom n, [v])] := by
          unfold insertAttribute
          rw [hname, hval]
          show (if (n == "") = true then acc else attrSet acc (stripCustom n) [v])
            = acc ++ [(stripCustom n, [v])]
          rw [if_neg hne]
          exact attrSet_append_of_fresh acc (stripCustom n) [v] hfreshn
        have hpair : effectivePair a = some (stripCustom n, [v]) := by
          unfold effectivePair
          rw [hname, hval]
          show (if (n == "") = true then none else some (stripCustom n, [v]))
            = some (stripCustom n, [v])
          rw [if_neg hne]
        rw [hstep, hpair]
        have hnodup' : (strippedNamesOf rest).Nodup := by
          rw [hcons] at hnodup
          exact hnodup.of_cons
        have hnotmem : stripCustom n ∉ strippedNamesOf rest := by
          rw [hcons] at hnodup
          exact (List.nodup_cons.mp hnodup).1
        rw [ih (acc ++ [(stripCustom n, [v])]) ?_ hnodup']
        · rw [List.append_assoc]
          rfl
        · intro p hp
          rcases List.mem_append.mp hp with hp1 | hp2
          · have := hfresh p hp1
            rw [hcons] at this
            exact fun hh => this (List.mem_cons_of_mem _ hh)
          · have : p = (stripCustom n, [v]) := by simpa using hp2
            rw [this]
            exact hnotmem
    | some n, none =>
      have hstep : insertAttribute acc a = acc := by
        unfold insertAttribute
        rw [hname, hval]
      have hpair : effectivePair a = none := by
        unfold effectivePair
        rw [hname, hval]
      rw [hstep, hpair]
      have hsub : ∀ s, s ∈ strippedNamesOf rest → s ∈ strippedNamesOf (a :: rest) := by
        intro s hs
        rw [strippedNamesOf_cons]
        match strippedNameOf a with
        | some t => exact List.mem_cons_of_mem t hs
        | none => exact hs
      have hnodup' : (strippedNamesOf rest).Nodup := by
        rw [strippedNamesOf_cons] at hnodup
        match hsn : strippedNameOf a with
        | some t => rw [hsn] at hnodup; exact hnodup.of_cons
        | none => rwa [hsn] at hnodup
      exact ih acc (fun p hp hmem => hfresh p hp (hsub _ hmem)) hnodup'
    | none, hv2 =>
      have hstep : insertAttribute acc a = acc := by
        unfold insertAttribute
        rw [hname]
      have hpair : effectivePair a = none := by
        unfold effectivePair
        rw [hname]
      have hsn : strippedNameOf a = none := by
        unfold strippedNameOf
        rw [hname]
      rw [hstep, hpair]
      have hrest : strippedNamesOf (a :: rest) = strippedNamesOf rest := by
        rw [strippedNamesOf_cons, hsn]
      exact ih acc (fun p hp => by
        have := hfresh p hp
        rwa [hrest] at this) (by rwa [hrest] at hnodup)

theorem strippedNamesOf_nodup_tail (b : AttributeType) (rest : List AttributeType)
    (hnodup : (strippedNamesOf (b :: rest)).Nodup) : (strippedNamesOf rest).Nodup := by
  rw [strippedNamesOf_cons] at hnodup
  match hsb : strippedNameOf b with
  | some t => rw [hsb] at hnodup; exact hnodup.of_cons
  | none => rwa [hsb] at hnodup

theorem getAttributeValue_of_unique (L : List AttributeType) (a : AttributeType) (n : String)
    (hnodup : (strippedNamesOf L).Nodup) (ha : a ∈ L) (hn : a.Name = some n) (hne : n ≠ "") :
    getAttributeValue (some L) n = a.Value := by
  induction L with
  | nil => cases ha
  | cons b rest ih =>
    by_cases hb : b.Name = some n
    · have hfind : getAttributeValue (some (b :: rest)) n = b.Value := by
        unfold getAttributeValue
        show (match List.find? (fun a => a.Name == some n) (b :: rest) with
          | some a => a.Value
          | none => none) = b.Value
        rw [List.find?_cons_of_pos _ (by simp [hb])]
      rcases List.mem_cons.mp ha with rfl | hmem
      · exact hfind
      · exfalso
        have hsb : strippedNameOf b = some (stripCustom n) := by
          unfold strippedNameOf
          rw [hb]
          show (if (n == "") = true then none else some (stripCustom n)) = some (stripCustom n)
          rw [if_neg (by simp [hne])]
        have hcons : strippedNamesOf (b :: rest) = stripCustom n :: strippedNamesOf rest := by
          rw [strippedNamesOf_cons, hsb]
        have hmem2 : stripCustom n ∈ strippedNamesOf rest := by
          apply List.mem_filterMap.mpr
          refine ⟨a, hmem, ?_⟩
          unfold strippedNameOf
          rw [hn]
          show (if (n == "") = true then none else some (stripCustom n)) = some (stripCustom n)
          rw [if_neg (by simp [hne])]
        rw [hcons] at hnodup
        exact (List.nodup_cons.mp hnodup).1 hmem2
    · have hfind : getAttributeValue (some (b :: rest)) n = getAttributeValue (some rest) n := by
        unfold getAttributeValue
        show (match List.find? (fun a => a.Name == some n) (b :: rest) with
          | some a => a.Value
          | none => none) = getAttributeValue (some rest) n
        rw [List.find?_cons_of_neg _ (by simp [hb])]
        rfl
      rcases List.mem_cons.mp ha with rfl | hmem
      · exact absurd hn hb
      · rw [hfind]
        exact ih (strippedNamesOf_nodup_tail b rest hnodup) hmem

theorem mem_customAttributeList (m : AttrMap) (k v : String) (tail : List String)
    (hmem : (k, v :: tail) ∈ m)
    (hk1 : k ≠ "email") (hk2 : k ≠ "firstName") (hk3 : k ≠ "lastName") :
    AttributeType.mk (some ("custom:" ++ k)) (some v) ∈ customAttributeList m := by
  unfold customAttributeList
  apply List.mem_filterMap.mpr
  refine ⟨(k, v :: tail), hmem, ?_⟩
  show (if (k == "email" || k == "firstName" || k == "lastName") = true then none
      else some { Name := some ("custom:" ++ k), Value := some v })
    = some (AttributeType.mk (some ("custom:" ++ k)) (some v))
  rw [if_neg (by simp [hk1, hk2, hk3])]

/-- C4 counterexample: the entry named nickname (not the subject identifier,
with a defined value) does not round-trip: no entry of the output carries the
name nickname — the value comes back only under the name custom:nickname. -/
theorem attributeRoundTrip_counterexample :
    AttributeType.mk (some "nickname") (some "Bob")
      ∈ [AttributeType.mk (some "nickname") (some "Bob")]
    ∧ (AttributeType.mk (some "nickname") (some "Bob")).Name ≠ some "sub"
    ∧ (AttributeType.mk (some "nickname") (some "Bob")).Value ≠ none
    ∧ AttributeType.mk (some "nickname") (some "Bob")
      ∉ roundTripAttributes [AttributeType.mk (some "nickname") (some "Bob")]
    ∧ AttributeType.mk (some "custom:nickname") (some "Bob")
      ∈ roundTripAttributes [AttributeType.mk (some "nickname") (some "Bob")] := by
  refine ⟨by decide, by decide, by decide, by decide, by decide⟩

/-- C4 amended: provided the stripped names of the entries of L are pairwise
distinct, the round trip through the backend map preserves, with the same
name and value, every entry whose name is email, given_name or family_name
with a non-empty value, every entry named email_verified whose value is the
string true or false, and every custom: tagged entry whose stripped name is
not one of the backend field names email, firstName, lastName; an entry with
any other standard name comes back only under its custom: tagged name, so
the claim as stated fails for those. -/
theorem attributeRoundTrip (L : List AttributeType) (a : AttributeType) (n v : String)
    (hnodup : (strippedNamesOf L).Nodup) (ha : a ∈ L)
    (hn : a.Name = some n) (hv : a.Value = some v)
    (hcase : ((n = "email" ∨ n = "given_name" ∨ n = "family_name") ∧ v ≠ "")
      ∨ (n = "email_verified" ∧ (v = "true" ∨ v = "false"))
      ∨ (∃ x : String, n = "custom:" ++ x ∧ x ≠ "email" ∧ x ≠ "firstName" ∧ x ≠ "lastName")) :
    AttributeType.mk (some n) (some v) ∈ roundTripAttributes L := by
  have hmap : cognitoToKeycloakAttributes (some L) = L.filterMap effectivePair :=
    (cognitoToKeycloakAttributes_eq_foldl L).trans
      (foldl_insertAttribute_eq_append L [] (by simp) hnodup)
  rcases hcase with ⟨hstd, hvne⟩ | ⟨hev, hv01⟩ | ⟨x, hx, hx1, hx2, hx3⟩
  · rcases hstd with rfl | rfl | rfl
    · have hget : getAttributeValue (some L) "email" = some v :=
        (getAttributeValue_of_unique L a "email" hnodup ha hn (by decide)).trans hv
      simp [roundTripAttributes, keycloakToCognitoAttributes, backendUserOf, hget,
        strTruthy, hvne]
    · have hget : getAttributeValue (some L) "given_name" = some v :=
        (getAttributeValue_of_unique L a "given_name" hnodup ha hn (by decide)).trans hv
      simp [roundTripAttributes, keycloakToCognitoAttributes, backendUserOf, hget,
        strTruthy, hvne]
    · have hget : getAttributeValue (some L) "family_name" = some v :=
        (getAttributeValue_of_unique L a "family_name" hnodup ha hn (by decide)).trans hv
      simp [roundTripAttributes, keycloakToCognitoAttributes, backendUserOf, hget,
        strTruthy, hvne]
  · subst hev
    have hget : getAttributeValue (some L) "email_verified" = some v :=
      (getAttributeValue_of_unique L a "email_verified" hnodup ha hn (by decide)).trans hv
    rcases hv01 with rfl | rfl
    · simp [roundTripAttributes, keycloakToCognitoAttributes, backendUserOf, hget, strTruthy]
    · simp [roundTripAttributes, keycloakToCognitoAttributes, backendUserOf, hget, strTruthy]
  · subst hx
    have hnz : ("custom:" ++ x) ≠ "" := by
      intro hh
      have := congrArg String.data hh
      rw [String.data_append] at this
      simp at this
    have hpe : effectivePair a = some (x, [v]) := by
      unfold effectivePair
      rw [hn, hv]
      show (if ("custom:" ++ x == "") = true then none
          else some (stripCustom ("custom:" ++ x), [v])) = some (x, [v])
      rw [if_neg (by simp [hnz]), stripCustom_tagged]
    have hmem1 : (x, [v]) ∈ cognitoToKeycloakAttributes (some L) := by
      rw [hmap]
      exact List.mem_filterMap.mpr ⟨a, ha, hpe⟩
    have hmem2 : AttributeType.mk (some ("custom:" ++ x)) (some v)
        ∈ customAttributeList (cognitoToKeycloakAttributes (some L)) :=
      mem_customAttributeList _ x v [] hmem1 hx1 hx2 hx3
    unfold roundTripAttributes keycloakToCognitoAttributes
    apply List.mem_append_right
    show AttributeType.mk (some ("custom:" ++ x)) (some v)
      ∈ match (backendUserOf L).attributes with
        | some m => customAttributeList m
        | none => []
    exact hmem2

/-- Witness for C4 at a concrete two-entry list: both the standard email
entry and the custom: tagged entry round-trip. -/
theorem attributeRoundTrip_witness :
    AttributeType.mk (some "email") (some "a@b.com")
      ∈ roundTripAttributes [AttributeType.mk (some "email") (some "a@b.com"),
          AttributeType.mk (some "custom:color") (some "red")]
    ∧ AttributeType.mk (some "custom:color") (some "red")
      ∈ roundTripAttributes [AttributeType.mk (some "email") (some "a@b.com"),
          AttributeType.mk (some "custom:color") (some "red")] :=
  ⟨attributeRoundTrip _ (AttributeType.mk (some "email") (some "a@b.com")) "email" "a@b.com"
      (by decide) (by decide) rfl rfl (Or.inl ⟨Or.inl rfl, by decide⟩),
   attributeRoundTrip _ (AttributeType.mk (some "custom:color") (some "red")) "custom:color" "red"
      (by decide) (by decide) rfl rfl
      (Or.inr (Or.inr ⟨"color", rfl, by decide, by decide, by decide⟩))⟩
